import Mathlib

/-!
# The launch step of the game process

A shallow embedding of `launcher/minecraft/launch/LauncherPartLaunch.cpp`:
the assembly of the command line (`executeTask`), the reaction to the state
changes of the child process (`on_state`) and the two control operations
(`proceed`, `abort`).

Every call the C++ code makes on an object it does not own (the logged
process, the launch task, the application) is recorded as an `Effect`; a
member function becomes a function from the object before the call to the
object after it and the list of effects, in program order.  Everything the
code reads from its surroundings (settings, search path, environment
variables, helpers of other translation units) is a field of `Host`.
-/

namespace Launcher

/-! ## Qt strings -/

/-- Embeds `QChar::isSpace`: the ASCII white space, NEL, NBSP and the Unicode
separator characters. -/
def qIsSpace (c : Char) : Bool :=
  (9 ≤ c.toNat && c.toNat ≤ 13) || c.toNat = 32 || c.toNat = 0x85 || c.toNat = 0xA0
    || c.toNat = 0x1680 || (0x2000 ≤ c.toNat && c.toNat ≤ 0x200A)
    || c.toNat = 0x2028 || c.toNat = 0x2029 || c.toNat = 0x202F
    || c.toNat = 0x205F || c.toNat = 0x3000

/-- Embeds `QString::trimmed`: white space removed from both ends. -/
def trimmed (s : String) : String :=
  ⟨((s.data.dropWhile qIsSpace).reverse.dropWhile qIsSpace).reverse⟩

/-- Replacement of the place marker `%1` in a list of characters. -/
def argChars (a : List Char) : List Char → List Char
  | '%' :: '1' :: rest => a ++ argChars a rest
  | c :: rest => c :: argChars a rest
  | [] => []

/-- Embeds `QString::arg` for a format whose lowest place marker is `%1` (the only
marker in the format strings of this file): every `%1` is replaced. -/
def qArg (fmt a : String) : String :=
  ⟨argChars a.data fmt.data⟩

/-- Embeds `QString::startsWith(QChar)`. -/
def startsWithChar (s : String) (c : Char) : Bool :=
  s.data.head? = some c

/-- Embeds `QString::mid(1)`. -/
def mid1 (s : String) : String :=
  ⟨s.data.drop 1⟩

/-- Embeds `QStringList::join`. -/
def join (sep : String) (l : List String) : String :=
  sep.intercalate l

/-! ## Collaborators -/

/-- The levels of `MessageLevel::Enum` this file uses. -/
inductive MessageLevel
  | Launcher
  | Error
  | Fatal
  deriving DecidableEq, Repr

/-- Embeds `LoggedProcess::State`. -/
inductive State
  | NotRunning
  | Starting
  | FailedToStart
  | Running
  | Finished
  | Crashed
  | Aborted
  deriving DecidableEq, Repr

/-- The operating system the file is compiled for (`Q_OS_LINUX`, `Q_OS_WIN`,
or neither). -/
inductive Platform
  | Linux
  | Windows
  | Other
  deriving DecidableEq, Repr

/-- The `QStandardPaths` locations this file asks for. -/
inductive StandardLocation
  | RuntimeLocation
  | HomeLocation
  | GenericConfigLocation
  deriving DecidableEq, Repr

/-- What the member `m_process` answers when it is asked. -/
structure LoggedProcess where
  state : State
  exitCode : Int
  processId : Int
  deriving DecidableEq, Repr

/-- One call on a collaborator, or one emitted signal.  The argument of
`write` is the text whose UTF-8 bytes (`QString::toUtf8`) are written. -/
inductive Effect
  | logLine (text : String) (level : MessageLevel)
  | emitFailed (reason : String)
  | emitSucceeded
  | readyForLaunch
  | qDebug (text : String)
  | setProcessEnvironment (env : List (String × String))
  | setDetachable (detachable : Bool)
  | start (program : String) (arguments : List String)
  | write (text : String)
  | kill
  | setPid (pid : Int)
  | setLastLaunch
  | showMainWindow
  | gamemode_request_start_for (pid : Int)
  | qDebugList (lines : List String)
  | closeAllWindows
  | logLines (lines : List String) (level : MessageLevel)
  deriving DecidableEq, Repr

/-- Everything `LauncherPartLaunch.cpp` reads from outside itself. -/
structure Host where
  /-- The platform the conditional sections are compiled for. -/
  platform : Platform
  /-- Embeds `tr`. -/
  tr : String → String
  /-- Embeds `APPLICATION->getJarPath`. -/
  getJarPath : String → String
  /-- Embeds `APPLICATION->capabilities() & Application::SupportsMangoHud`. -/
  supportsMangoHud : Bool
  /-- Embeds `APPLICATION->capabilities() & Application::SupportsGameMode`. -/
  supportsGameMode : Bool
  /-- Embeds `settings()->get(key).toBool()`. -/
  settingsBool : String → Bool
  /-- Embeds `settings()->get(key).toString()`. -/
  settingsString : String → String
  /-- Embeds `minecraftInstance->createLaunchScript(m_session, m_serverToJoin)`. -/
  createLaunchScript : String
  /-- Embeds `minecraftInstance->javaArguments()`. -/
  javaArguments : List String
  /-- Embeds `m_parent->censorPrivateInfo`. -/
  censorPrivateInfo : String → String
  /-- Embeds `instance->createLaunchEnvironment()`. -/
  createLaunchEnvironment : List (String × String)
  /-- Embeds `minecraftInstance->getClassPath()`. -/
  getClassPath : List String
  /-- Embeds `minecraftInstance->getNativePath()`. -/
  getNativePath : String
  /-- Embeds `minecraftInstance->instanceRoot()`. -/
  instanceRoot : String
  /-- Embeds `instance->getWrapperCommand()`. -/
  getWrapperCommand : String
  /-- Embeds `FS::ResolveExecutable`. -/
  ResolveExecutable : String → String
  /-- Embeds `FS::PathCombine`. -/
  PathCombine : String → String → String
  /-- Embeds `Commandline::splitArgs`. -/
  splitArgs : String → List String
  /-- Embeds `MangoHud::getBwrapBinary()`. -/
  getBwrapBinary : String
  /-- Embeds `BuildConfig.LINUX_BWRAP_EXTRA_ARGS`. -/
  LINUX_BWRAP_EXTRA_ARGS : String
  /-- Embeds `QStandardPaths::findExecutable`. -/
  findExecutable : String → String
  /-- Embeds `QStandardPaths::writableLocation`. -/
  writableLocation : StandardLocation → String
  /-- The environment of the launcher: `none` for a variable that is not set. -/
  environment : String → Option String
  /-- Embeds `QDir::toNativeSeparators(QDir(p).absolutePath())`. -/
  absoluteNativePath : String → String
  /-- Embeds `QString::fromLocal8Bit(s.toLocal8Bit())`. -/
  local8BitRoundTrip : String → String
  /-- The short (8.3) form `GetShortPathNameW` gives for a path, or `none` when
  the call fails (the path does not exist, for one) and returns 0. -/
  GetShortPathNameW : String → Option String
  /-- Embeds `m_process.processId()` right after `m_process.start`. -/
  startedProcessId : Int

/-- The members of `LauncherPartLaunch` the functions below read or assign. -/
structure LauncherPartLaunch where
  m_launchScript : String
  mayProceed : Bool
  deriving DecidableEq, Repr

/-- Embeds `qEnvironmentVariable(name)`: empty when the variable is not set. -/
def qEnvironmentVariable (h : Host) (name : String) : String :=
  (h.environment name).getD ""

/-- Embeds `qEnvironmentVariable(name, defaultValue)`. -/
def qEnvironmentVariableOr (h : Host) (name defaultValue : String) : String :=
  (h.environment name).getD defaultValue

/-! ## Argument assembly -/

/-- Embeds `shortPathName` (lines 78-92, Windows only): the 8.3 form of a long
path.  The first call of `GetShortPathNameW` returns the length of that form
with its terminating null, or 0 when it fails; the second call fills the
buffer; `output.resize(length-1)` cuts the null off, and for the length 0 it
throws `std::length_error`: the result is `none` then. -/
def shortPathName (h : Host) (file : String) : Option String :=
  let length : Int :=
    match h.GetShortPathNameW file with
    | some short => short.data.length + 1
    | none => 0
  let output : List Char := ((h.GetShortPathNameW file).getD "").data
  if length - 1 < 0 then none else some ⟨output.take (length - 1).toNat⟩

/-- Embeds `fitsInLocal8bit`: the string survives the round trip through the local
8 bit encoding. -/
def fitsInLocal8bit (h : Host) (string : String) : Bool :=
  string = h.local8BitRoundTrip string

/-- The native-library path as it is put on the command line (lines 128-140);
`none` when `shortPathName` throws. -/
def natPathArg (h : Host) : Option String :=
  let natPath := h.getNativePath
  match h.platform with
  | .Windows =>
    if !fitsInLocal8bit h natPath then
      (shortPathName h natPath).map (fun short => "-Djava.library.path=" ++ short)
    else
      some ("-Djava.library.path=" ++ natPath)
  | _ => some ("-Djava.library.path=" ++ natPath)

/-- The class path of the launch: `getClassPath()` with the support jar
prepended (lines 125-126). -/
def classPath (h : Host) (jarPath : String) : List String :=
  jarPath :: h.getClassPath

/-- The loop of lines 144-155 (Windows only); `none` when `shortPathName`
throws for one of the items. -/
def processed (h : Host) : List String → Option (List String)
  | [] => some []
  | item :: items =>
    if !fitsInLocal8bit h item then
      match shortPathName h item with
      | none => none
      | some short => (processed h items).map (fun rest => short :: rest)
    else
      (processed h items).map (fun rest => item :: rest)

/-- The argument that follows `-cp` (lines 143-159); `none` when
`shortPathName` throws. -/
def classPathArg (h : Host) (jarPath : String) : Option String :=
  match h.platform with
  | .Windows => (processed h (classPath h jarPath)).map (fun items => join ";" items)
  | _ => some (join ":" (classPath h jarPath))

/-- The list `args` after line 160: the arguments of the Java invocation;
`none` when `shortPathName` throws on the way. -/
def javaArgs (h : Host) (jarPath : String) : Option (List String) :=
  match natPathArg h with
  | none => none
  | some natArg =>
    match classPathArg h jarPath with
    | none => none
    | some cpArg =>
      some (h.javaArguments ++ [natArg] ++ ["-cp"] ++ [cpArg]
        ++ ["org.prismlauncher.EntryPoint"])

/-- The list `args` after line 164: the resolved Java executable first. -/
def javaInvocation (h : Host) (jarPath : String) : Option (List String) :=
  (javaArgs h jarPath).map
    (fun args => h.ResolveExecutable (h.settingsString "JavaPath") :: args)

/-! ## Sandbox -/

/-- Embeds `wantSandbox` (line 166). -/
def wantSandbox (h : Host) : Bool :=
  h.settingsBool "EnableSandboxing"

/-- Embeds `canSandbox` (lines 167-172): only a Linux build looks for the tool. -/
def canSandbox (h : Host) : Bool :=
  match h.platform with
  | .Linux => !(h.getBwrapBinary = "")
  | _ => false

/-- The static list `systemBinds` (lines 186-199). -/
def systemBinds : List String :=
  [ "/etc", "/usr", "/bin", "/sbin", "/lib", "/lib32", "/lib64", "/sys/class",
    "/sys/dev/char", "/sys/devices/pci0000:00", "/sys/devices/system/cpu",
    "/run/systemd/resolve" ]

/-- The X11 socket bind of lines 227-230. -/
def x11Bind (h : Host) : List String :=
  let display := qEnvironmentVariable h "DISPLAY"
  if startsWithChar display ':' then
    let x11Socket := qArg "/tmp/.X11-unix/X%1" (mid1 display)
    ["--ro-bind-try", x11Socket, x11Socket]
  else
    []

/-- The Xauthority bind of line 232. -/
def xAuthBind (h : Host) : List String :=
  let xAuthPath := qEnvironmentVariableOr h "XAUTHORITY"
    (h.PathCombine (h.writableLocation .HomeLocation) ".Xauthority")
  ["--ro-bind-try", xAuthPath, xAuthPath]

/-- The Wayland bind of lines 234-237. -/
def waylandBind (h : Host) (actualRuntimeDir sandboxedRuntimeDir : String) : List String :=
  let wlDisplay := qEnvironmentVariable h "WAYLAND_DISPLAY"
  if startsWithChar wlDisplay '/' then
    ["--ro-bind-try", wlDisplay, wlDisplay]
  else
    ["--ro-bind-try", h.PathCombine actualRuntimeDir wlDisplay,
      h.PathCombine sandboxedRuntimeDir wlDisplay]

/-- The MangoHud configuration bind of lines 240-244. -/
def mangoHudBind (h : Host) : List String :=
  if h.settingsBool "EnableMangoHud" && h.supportsMangoHud then
    let mangoHudConfigPath := qEnvironmentVariableOr h "MANGOHUD_CONFIGFILE"
      (h.PathCombine (h.writableLocation .GenericConfigLocation) "MangoHud")
    ["--ro-bind-try", mangoHudConfigPath, mangoHudConfigPath]
  else
    []

/-- The binds of the launcher's own directories (lines 247-258). -/
def launcherBinds (h : Host) (jarPath : String) : List String :=
  let instPath := h.absoluteNativePath h.instanceRoot
  let assetsPath := h.absoluteNativePath "assets"
  let librariesPath := h.absoluteNativePath "libraries"
  ["--bind", instPath, instPath]
    ++ ["--ro-bind", assetsPath, assetsPath]
    ++ ["--ro-bind", librariesPath, librariesPath]
    ++ ["--ro-bind", jarPath, jarPath]

/-- The list `bwrapArgs` when line 265 is reached (lines 183-264). -/
def bwrapArgs (h : Host) (jarPath : String) : List String :=
  let actualRuntimeDir := h.writableLocation .RuntimeLocation
  let sandboxedRuntimeDir := "/tmp"
  [h.getBwrapBinary]
    ++ ["--unshare-all"]
    ++ ["--share-net"]
    ++ ["--die-with-parent"]
    ++ ["--unsetenv", "DBUS_SESSION_BUS_ADDRESS"]
    ++ ["--dev", "/dev"]
    ++ ["--dev-bind-try", "/dev/dri", "/dev/dri"]
    ++ ["--proc", "/proc"]
    ++ ["--setenv", "XDG_RUNTIME_DIR", sandboxedRuntimeDir]
    ++ systemBinds.flatMap (fun path => ["--ro-bind-try", path, path])
    ++ ["--ro-bind-try", qArg "%1/pulse" actualRuntimeDir, qArg "%1/pulse" sandboxedRuntimeDir]
    ++ ["--ro-bind-try", qArg "%1/pipewire-0" actualRuntimeDir,
          qArg "%1/pipewire-0" sandboxedRuntimeDir]
    ++ x11Bind h
    ++ xAuthBind h
    ++ waylandBind h actualRuntimeDir sandboxedRuntimeDir
    ++ mangoHudBind h
    ++ launcherBinds h jarPath
    ++ h.splitArgs h.LINUX_BWRAP_EXTRA_ARGS
    ++ h.splitArgs (h.settingsString "BwrapExtraArgs")
    ++ ["--"]

/-- The sandbox section (lines 181-267), which only a Linux build contains,
applied to the list `args` it finds. -/
def sandboxSection (h : Host) (jarPath : String) (args : List String) : List String :=
  match h.platform with
  | .Linux => if wantSandbox h && canSandbox h then bwrapArgs h jarPath ++ args else args
  | _ => args

/-- The list `args` after the sandbox section (lines 181-267). -/
def sandboxedInvocation (h : Host) (jarPath : String) : Option (List String) :=
  (javaInvocation h jarPath).map (fun args => sandboxSection h jarPath args)

/-! ## `executeTask` -/

/-- The message of lines 106-108. -/
def reasonNoJar : String :=
  "Launcher library could not be found. Please check your installation."

/-- The message of lines 175-177. -/
def reasonNoSandbox : String :=
  "Sandboxing was requested, but is NOT available on your system.\nPlease turn off sandboxing to proceed launching."

/-- The message of lines 279-281, with its place marker. -/
def reasonNoWrapper : String :=
  "The wrapper command \"%1\" couldn't be found."

/-- The GameMode registration of lines 292-301, which only a Linux build
contains. -/
def gamemodeEffects (h : Host) : List Effect :=
  match h.platform with
  | .Linux =>
    if h.settingsBool "EnableFeralGamemode" && h.supportsGameMode then
      let pid := h.startedProcessId
      if pid ≠ 0 then [.gamemode_request_start_for pid] else []
    else
      []
  | _ => []

/-- The effects of lines 115-123, which every run that found the support jar
performs. -/
def assemblyEffects (h : Host) : List Effect :=
  [ .logLine ("Java Arguments:\n[" ++ h.censorPrivateInfo (join ", " h.javaArguments) ++ "]\n\n")
      .Launcher,
    .setProcessEnvironment h.createLaunchEnvironment,
    .setDetachable true ]

/-- How a run of `executeTask` ends, with the effects it had until then: it
returns, `shortPathName` throws `std::length_error` out of it, or it reaches
`takeFirst` on an empty list, which has no defined behaviour. -/
inductive Ending
  | returned (self : LauncherPartLaunch) (effects : List Effect)
  | threw (effects : List Effect)
  | undefined (effects : List Effect)
  deriving DecidableEq, Repr

/-- The effects of a run, however it ends. -/
def Ending.effects : Ending → List Effect
  | .returned _ effects => effects
  | .threw effects => effects
  | .undefined effects => effects

/-- Embeds `LauncherPartLaunch::executeTask`. -/
def executeTask (h : Host) (self : LauncherPartLaunch) : Ending :=
  let jarPath := h.getJarPath "NewLaunch.jar"
  if jarPath = "" then
    .returned self [.logLine (h.tr reasonNoJar) .Fatal, .emitFailed (h.tr reasonNoJar)]
  else
    let self := { self with m_launchScript := h.createLaunchScript }
    let done := assemblyEffects h
    match javaArgs h jarPath with
    | none => .threw done
    | some args =>
      let done := done ++ [.qDebug (join " " args)]
      let args := h.ResolveExecutable (h.settingsString "JavaPath") :: args
      if wantSandbox h && !canSandbox h then
        .returned self (done ++
          [.logLine (h.tr reasonNoSandbox) .Error, .emitFailed (h.tr reasonNoSandbox)])
      else
        let args := sandboxSection h jarPath args
        let done := done ++ [.qDebug (join " " args)]
        let wrapperCommandStr := trimmed h.getWrapperCommand
        if wrapperCommandStr ≠ "" then
          match h.splitArgs wrapperCommandStr with
          | [] => .undefined done
          | wrapperCommand :: wrapperArgs =>
            let realWrapperCommand := h.findExecutable wrapperCommand
            if realWrapperCommand = "" then
              .returned self (done ++
                [.logLine (qArg reasonNoWrapper wrapperCommand) .Fatal,
                 .emitFailed (qArg (h.tr reasonNoWrapper) wrapperCommand)])
            else
              .returned self (done ++
                [.logLine ("Wrapper command is:\n" ++ wrapperCommandStr ++ "\n\n") .Launcher,
                 .start wrapperCommand (wrapperArgs ++ args)] ++ gamemodeEffects h)
        else
          match args with
          | [] => .undefined done
          | program :: arguments =>
            .returned self (done ++ [.start program arguments] ++ gamemodeEffects h)

/-! ## State changes and the control operations -/

/-- Embeds `LauncherPartLaunch::on_state`. -/
def on_state (h : Host) (m_process : LoggedProcess) (self : LauncherPartLaunch) (state : State) :
    LauncherPartLaunch × List Effect :=
  match state with
  | .FailedToStart =>
    let reason := "Could not launch Minecraft!"
    (self, [.logLine reason .Fatal, .emitFailed (h.tr reason)])
  | .Aborted | .Crashed =>
    (self, [.setPid (-1), .emitFailed (h.tr "Game crashed.")])
  | .Finished =>
    let shown : List Effect :=
      if h.settingsBool "CloseAfterLaunch" then [.showMainWindow] else []
    let exitCode := m_process.exitCode
    if exitCode ≠ 0 then
      (self, shown ++ [.setPid (-1), .emitFailed (h.tr "Game crashed.")])
    else
      (self, shown ++ [.setPid (-1), .emitSucceeded])
  | .Running =>
    ({ self with mayProceed := true },
      [ .logLine (qArg "Minecraft process ID: %1\n\n" (toString m_process.processId)) .Launcher,
        .setPid m_process.processId,
        .setLastLaunch,
        .write self.m_launchScript,
        .readyForLaunch ])
  | _ => (self, [])

/-- Embeds `LauncherPartLaunch::proceed`. -/
def proceed (self : LauncherPartLaunch) : LauncherPartLaunch × List Effect :=
  if self.mayProceed then
    let launchString := "launch\n"
    ({ self with mayProceed := false }, [.write launchString])
  else
    (self, [])

/-- Embeds `LauncherPartLaunch::abort`: the object after the call, the effects and
the returned value. -/
def abort (m_process : LoggedProcess) (self : LauncherPartLaunch) :
    LauncherPartLaunch × List Effect × Bool :=
  if self.mayProceed then
    let launchString := "abort\n"
    ({ self with mayProceed := false }, [.write launchString], true)
  else
    let state := m_process.state
    if state = .Running || state = .Starting then
      (self, [.kill], true)
    else
      (self, [], true)

/-! ## Reading a list of effects -/

/-- The invocations handed to `m_process.start`, program first. -/
def started : List Effect → List (List String)
  | [] => []
  | .start program arguments :: es => (program :: arguments) :: started es
  | _ :: es => started es

/-- The invocations a run of `executeTask` hands to `m_process.start`. -/
def spawned (h : Host) (self : LauncherPartLaunch) : List (List String) :=
  match executeTask h self with
  | .returned _ effects => started effects
  | _ => []

/-- The reasons handed to `emitFailed`. -/
def failures : List Effect → List String
  | [] => []
  | .emitFailed reason :: es => reason :: failures es
  | _ :: es => failures es

/-- The number of `emitSucceeded` signals. -/
def successes : List Effect → Nat
  | [] => 0
  | .emitSucceeded :: es => successes es + 1
  | _ :: es => successes es

/-- The texts written to the input stream of the child. -/
def written : List Effect → List String
  | [] => []
  | .write text :: es => text :: written es
  | _ :: es => written es

/-- The process ids handed to `m_parent->setPid`. -/
def setPids : List Effect → List Int
  | [] => []
  | .setPid pid :: es => pid :: setPids es
  | _ :: es => setPids es

/-- The number of `m_process.kill()` calls. -/
def kills : List Effect → Nat
  | [] => 0
  | .kill :: es => kills es + 1
  | _ :: es => kills es

/-- A call of one of the two control operations; `abort` also reads what the
process answers at that moment. -/
inductive Call
  | proceed
  | abort (m_process : LoggedProcess)
  deriving DecidableEq, Repr

/-- The object after one control call, and the effects of the call. -/
def call (self : LauncherPartLaunch) : Call → LauncherPartLaunch × List Effect
  | .proceed => proceed self
  | .abort m_process => ((abort m_process self).1, (abort m_process self).2.1)

/-- A sequence of control calls, one after the other. -/
def calls (self : LauncherPartLaunch) : List Call → LauncherPartLaunch × List Effect
  | [] => (self, [])
  | c :: cs => ((calls (call self c).1 cs).1, (call self c).2 ++ (calls (call self c).1 cs).2)

/-- The control line a call writes when the gate is open. -/
def controlLine : Call → String
  | .proceed => "launch\n"
  | .abort _ => "abort\n"

/-! ## The marker in the log -/

/-- A pattern character of a regular expression: the dot or a literal. -/
inductive Atom
  | dot
  | lit (c : Char)
  deriving DecidableEq, Repr

/-- A pattern character, alone or under one of the quantifiers `*` and `+`. -/
inductive Item
  | one (a : Atom)
  | star (a : Atom)
  | plus (a : Atom)
  deriving DecidableEq, Repr

/-- The case folding of caseless matching in UTF mode, for the characters that
fold to an ASCII letter: the capital letters, the long s and the Kelvin
sign. Every other character is its own code point. -/
def foldCase (c : Char) : Nat :=
  if 65 ≤ c.toNat ∧ c.toNat ≤ 90 then c.toNat + 32
  else if c.toNat = 0x17F then 115
  else if c.toNat = 0x212A then 107
  else c.toNat

/-- One subject character against one pattern character.  The dot matches
every character but the line feed (no `DotMatchesEverythingOption`); a literal
matches itself, and with `CaseInsensitiveOption` every character with the same
case folding. -/
def atomMatches (caseInsensitive : Bool) : Atom → Char → Bool
  | .dot, c => c ≠ '\n'
  | .lit p, c => if caseInsensitive then foldCase p = foldCase c else p = c

/-- The loop of a quantifier: the rest of the pattern matches here, or the
next character matches the quantified pattern character and the loop goes
on behind it. -/
def starLoop (ok : Char → Bool) (rest : List Char → Bool) : List Char → Bool
  | [] => rest []
  | c :: cs => rest (c :: cs) || (ok c && starLoop ok rest cs)

/-- Whether the pattern matches at the start of the subject. -/
def matchHere (caseInsensitive : Bool) : List Item → List Char → Bool
  | [] => fun _ => true
  | .one a :: items => fun
    | [] => false
    | c :: cs => atomMatches caseInsensitive a c && matchHere caseInsensitive items cs
  | .star a :: items => starLoop (atomMatches caseInsensitive a) (matchHere caseInsensitive items)
  | .plus a :: items => fun
    | [] => false
    | c :: cs => atomMatches caseInsensitive a c &&
        starLoop (atomMatches caseInsensitive a) (matchHere caseInsensitive items) cs

/-- Whether the pattern matches somewhere in the subject, as
`QString::contains(QRegularExpression)` asks. -/
def containsMatch (caseInsensitive : Bool) (items : List Item) : List Char → Bool
  | [] => matchHere caseInsensitive items []
  | c :: cs => matchHere caseInsensitive items (c :: cs) || containsMatch caseInsensitive items cs

/-- The regular expression `.*Setting user.+` of line 63. -/
def settingUserPattern : List Item :=
  [.star .dot] ++ "Setting user".data.map (fun c => Item.one (.lit c)) ++ [.plus .dot]

/-- Embeds `QStringList::filter(QRegularExpression)` for the expression of line 63,
built with `CaseInsensitiveOption`. -/
def filterSettingUser (lines : List String) : List String :=
  lines.filter (fun line => containsMatch true settingUserPattern line.data)

/-- The connection the constructor keeps for its lambda: whether the lambda is
still connected to the `log` signal of the process. -/
structure Connection where
  connected : Bool
  deriving DecidableEq, Repr

/-- The constructor `LauncherPartLaunch::LauncherPartLaunch`: the lambda is
connected only with `CloseAfterLaunch` set. -/
def construct (h : Host) : Connection :=
  if h.settingsBool "CloseAfterLaunch" then { connected := true } else { connected := false }

/-- The lambda of lines 61-68: the connection after the call, and the effects. -/
def logLambda (lines : List String) (_level : MessageLevel) : Connection × List Effect :=
  if (filterSettingUser lines).length ≠ 0 then
    ({ connected := false }, [.qDebugList lines, .closeAllWindows])
  else
    ({ connected := true }, [.qDebugList lines])

/-- The signal `LoggedProcess::log`: the lambda runs when it is connected, then
the batch is passed on through `logLines` (line 71). -/
def on_log (connection : Connection) (lines : List String) (level : MessageLevel) :
    Connection × List Effect :=
  if connection.connected then
    ((logLambda lines level).1, (logLambda lines level).2 ++ [.logLines lines level])
  else
    (connection, [.logLines lines level])

/-- A sequence of log batches, one `log` signal after the other. -/
def on_logs (connection : Connection) :
    List (List String × MessageLevel) → Connection × List Effect
  | [] => (connection, [])
  | batch :: batches =>
    ((on_logs (on_log connection batch.1 batch.2).1 batches).1,
      (on_log connection batch.1 batch.2).2 ++
        (on_logs (on_log connection batch.1 batch.2).1 batches).2)

/-- The number of `closeAllWindows` calls. -/
def closings : List Effect → Nat
  | [] => 0
  | .closeAllWindows :: es => closings es + 1
  | _ :: es => closings es

/-! ## Traces -/

/-- One thing that happens to the launch step: the process reports a state
change, or the caller makes a control call. -/
inductive Event
  | stateChanged (m_process : LoggedProcess) (state : State)
  | control (c : Call)
  deriving DecidableEq, Repr

/-- The object after one event, and the effects of the event. -/
def handle (h : Host) (self : LauncherPartLaunch) : Event → LauncherPartLaunch × List Effect
  | .stateChanged m_process state => on_state h m_process self state
  | .control c => call self c

/-- A sequence of events, one after the other. -/
def handleAll (h : Host) (self : LauncherPartLaunch) :
    List Event → LauncherPartLaunch × List Effect
  | [] => (self, [])
  | e :: es =>
    ((handleAll h (handle h self e).1 es).1,
      (handle h self e).2 ++ (handleAll h (handle h self e).1 es).2)

/-- One statement of a member function: a call on a collaborator (or an
emitted signal), or an assignment to `mayProceed`. -/
inductive Statement
  | effect (e : Effect)
  | assignMayProceed (value : Bool)
  deriving DecidableEq, Repr

/-- The statements of the `Running` case of `on_state`, in program order
(lines 344-351). -/
def runningStatements (m_process : LoggedProcess) (self : LauncherPartLaunch) :
    List Statement :=
  [ .effect (.logLine (qArg "Minecraft process ID: %1\n\n" (toString m_process.processId))
      .Launcher),
    .effect (.setPid m_process.processId),
    .effect .setLastLaunch,
    .effect (.write self.m_launchScript),
    .assignMayProceed true,
    .effect .readyForLaunch ]

/-- Statements executed one after the other. -/
def execute (self : LauncherPartLaunch) : List Statement → LauncherPartLaunch × List Effect
  | [] => (self, [])
  | .effect e :: rest => ((execute self rest).1, e :: (execute self rest).2)
  | .assignMayProceed value :: rest => execute { self with mayProceed := value } rest

/-! ## The sandbox arguments, option by option -/

/-- A block of sandbox arguments that is either empty or one option with its
operands, as a list of options. -/
def asOption (block : List String) : List (List String) :=
  match block with
  | [] => []
  | _ :: _ => [block]

/-- The sandbox arguments of lines 203-258, grouped as the statements of the
source append them: one option with its operands per entry. -/
def bwrapOptions (h : Host) (jarPath : String) : List (List String) :=
  let actualRuntimeDir := h.writableLocation .RuntimeLocation
  let sandboxedRuntimeDir := "/tmp"
  let instPath := h.absoluteNativePath h.instanceRoot
  let assetsPath := h.absoluteNativePath "assets"
  let librariesPath := h.absoluteNativePath "libraries"
  [ ["--unshare-all"],
    ["--share-net"],
    ["--die-with-parent"],
    ["--unsetenv", "DBUS_SESSION_BUS_ADDRESS"],
    ["--dev", "/dev"],
    ["--dev-bind-try", "/dev/dri", "/dev/dri"],
    ["--proc", "/proc"],
    ["--setenv", "XDG_RUNTIME_DIR", sandboxedRuntimeDir] ]
    ++ systemBinds.map (fun path => ["--ro-bind-try", path, path])
    ++ [ ["--ro-bind-try", qArg "%1/pulse" actualRuntimeDir, qArg "%1/pulse" sandboxedRuntimeDir],
         ["--ro-bind-try", qArg "%1/pipewire-0" actualRuntimeDir,
           qArg "%1/pipewire-0" sandboxedRuntimeDir] ]
    ++ asOption (x11Bind h)
    ++ [xAuthBind h]
    ++ [waylandBind h actualRuntimeDir sandboxedRuntimeDir]
    ++ asOption (mangoHudBind h)
    ++ [ ["--bind", instPath, instPath],
         ["--ro-bind", assetsPath, assetsPath],
         ["--ro-bind", librariesPath, librariesPath],
         ["--ro-bind", jarPath, jarPath] ]

/-- The options of the sandbox tool that bind a host path without making it
read-only, after its manual: the plain bind and the device bind, each also in
its `-try` form. -/
def bindsWritable (option : List String) : Bool :=
  match option with
  | [] => false
  | name :: _ => name = "--bind" || name = "--bind-try" || name = "--dev-bind"
      || name = "--dev-bind-try"

/-! ## Concrete hosts -/

/-- A stand-in for `Commandline::splitArgs` on a command without quotes or
escapes: the words between the spaces. -/
def splitAtSpaces : List Char → List Char → List String
  | word, [] => if word = [] then [] else [⟨word.reverse⟩]
  | word, c :: cs =>
    if c = ' ' then
      if word = [] then splitAtSpaces [] cs else ⟨word.reverse⟩ :: splitAtSpaces [] cs
    else
      splitAtSpaces (c :: word) cs

/-- A Linux desktop with the sandbox tool installed, an X11 display, no
wrapper command and sandboxing switched off. -/
def linuxHost : Host where
  platform := .Linux
  tr := fun s => s
  getJarPath := fun name => "/usr/share/PrismLauncher/" ++ name
  supportsMangoHud := false
  supportsGameMode := false
  settingsBool := fun _ => false
  settingsString := fun key => if key = "JavaPath" then "java" else ""
  createLaunchScript := "mainClass net.minecraft.client.main.Main\n"
  javaArguments := ["-Xms512m", "-Xmx4096m"]
  censorPrivateInfo := fun s => s
  createLaunchEnvironment := [("INST_NAME", "demo")]
  getClassPath := ["/data/libraries/a.jar", "/data/libraries/b.jar"]
  getNativePath := "/data/instances/demo/natives"
  instanceRoot := "/data/instances/demo"
  getWrapperCommand := ""
  ResolveExecutable := fun path => if path = "java" then "/usr/bin/java" else ""
  PathCombine := fun a b => a ++ "/" ++ b
  splitArgs := fun s => splitAtSpaces [] s.data
  getBwrapBinary := "/usr/bin/bwrap"
  LINUX_BWRAP_EXTRA_ARGS := ""
  findExecutable := fun name => if name = "gamemoderun" then "/usr/bin/gamemoderun" else ""
  writableLocation := fun
    | .RuntimeLocation => "/run/user/1000"
    | .HomeLocation => "/home/steve"
    | .GenericConfigLocation => "/home/steve/.config"
  environment := fun name => if name = "DISPLAY" then some ":0" else none
  absoluteNativePath := fun p => if startsWithChar p '/' then p else "/data/" ++ p
  local8BitRoundTrip := fun s => s
  GetShortPathNameW := fun s => some s
  startedProcessId := 4242

/-- A freshly constructed launch step. -/
def freshStep : LauncherPartLaunch :=
  { m_launchScript := "", mayProceed := false }

/-- The Linux desktop with sandboxing requested, no sandbox tool, and the
support jar missing from the installation. -/
def noJarNoBwrapHost : Host :=
  { linuxHost with
    getJarPath := fun _ => ""
    settingsBool := fun key => key = "EnableSandboxing"
    getBwrapBinary := "" }

/-- The Linux desktop with sandboxing requested, no sandbox tool, and the
wrapper command `primus-run`, which is not on the search path. -/
def noBwrapWrapperHost : Host :=
  { linuxHost with
    settingsBool := fun key => key = "EnableSandboxing"
    getBwrapBinary := ""
    getWrapperCommand := "primus-run" }

/-- The Linux desktop with sandboxing requested and no sandbox tool. -/
def noBwrapHost : Host :=
  { linuxHost with
    settingsBool := fun key => key = "EnableSandboxing"
    getBwrapBinary := "" }

/-- The Linux desktop with a wrapper command whose first word is not on the
search path. -/
def missingWrapperHost : Host :=
  { linuxHost with getWrapperCommand := " primus-run --fast " }

/-- The Linux desktop with a wrapper command that is on the search path. -/
def wrapperHost : Host :=
  { linuxHost with getWrapperCommand := "gamemoderun --quiet" }

/-- The Linux desktop with sandboxing requested. -/
def sandboxHost : Host :=
  { linuxHost with settingsBool := fun key => key = "EnableSandboxing" }

/-- The Linux desktop with a Java path that resolves to no executable. -/
def noJavaHost : Host :=
  { linuxHost with ResolveExecutable := fun _ => "" }

/-- A Windows desktop whose local 8 bit encoding has no Japanese characters:
the round trip turns them into question marks.  The native-library directory
lies below a directory with such a name. -/
def windowsHost : Host :=
  { linuxHost with
    platform := .Windows
    getJarPath := fun name => "C:/PrismLauncher/jars/" ++ name
    settingsString := fun key => if key = "JavaPath" then "javaw" else ""
    getClassPath := ["C:/mc/libraries/a.jar", "C:/mc/libraries/b.jar"]
    getNativePath := "C:/Users/ゲーム/natives"
    instanceRoot := "C:/mc/instances/demo"
    ResolveExecutable := fun path => if path = "javaw" then "C:/Java/bin/javaw.exe" else ""
    getBwrapBinary := ""
    environment := fun _ => none
    local8BitRoundTrip := fun s => ⟨s.data.map (fun c => if c.toNat < 256 then c else '?')⟩
    GetShortPathNameW := fun path =>
      if path = "C:/Users/ゲーム/natives" then some "C:/Users/30B2~1/natives" else some path }

/-- The Windows desktop with an instance whose first library lies below a
directory with a Japanese name. -/
def windowsLibraryHost : Host :=
  { windowsHost with
    getClassPath := ["C:/ゲーム/libraries/a.jar", "C:/mc/libraries/b.jar"]
    getNativePath := "C:/mc/instances/demo/natives"
    GetShortPathNameW := fun path =>
      if path = "C:/ゲーム/libraries/a.jar" then some "C:/30B2~1/libraries/a.jar"
      else some path }

/-- A process that is running. -/
def runningProcess : LoggedProcess :=
  { state := .Running, exitCode := 0, processId := 4242 }

/-- A process that has finished with exit code 0. -/
def finishedProcess : LoggedProcess :=
  { state := .Finished, exitCode := 0, processId := 4242 }

/-- The Linux desktop with sandboxing requested and the bare path
`/opt/custom` as the extra sandbox arguments of the instance. -/
def extraPathHost : Host :=
  { linuxHost with
    settingsBool := fun key => key = "EnableSandboxing"
    settingsString := fun key =>
      if key = "JavaPath" then "java"
      else if key = "BwrapExtraArgs" then "/opt/custom" else "" }

/-- The Linux desktop with sandboxing requested and a read-only bind of
`/opt/custom` spelled out in the extra sandbox arguments of the instance. -/
def extraBindHost : Host :=
  { linuxHost with
    settingsBool := fun key => key = "EnableSandboxing"
    settingsString := fun key =>
      if key = "JavaPath" then "java"
      else if key = "BwrapExtraArgs" then "--ro-bind /opt/custom /opt/custom" else "" }

/-- The Linux desktop with `CloseAfterLaunch` set. -/
def closeAfterLaunchHost : Host :=
  { linuxHost with settingsBool := fun key => key = "CloseAfterLaunch" }

/-- A process that has finished with exit code 7. -/
def failedProcess : LoggedProcess :=
  { state := .Finished, exitCode := 7, processId := 4242 }

/-- The Windows desktop with a native-library directory that does not exist:
`GetShortPathNameW` fails for it. -/
def windowsMissingHost : Host :=
  { windowsHost with
    GetShortPathNameW := fun path =>
      if path = "C:/Users/ゲーム/natives" then none else some path }


/-- The Linux desktop with sandboxing requested and the wrapper command
`gamemoderun --quiet`. -/
def sandboxWrapperHost : Host :=
  { sandboxHost with getWrapperCommand := "gamemoderun --quiet" }

/-- The Linux desktop in a Wayland session: `WAYLAND_DISPLAY` names the socket
`wayland-0` in the runtime directory, `DISPLAY` is not set, and `PathCombine`
returns the other path when one of the two is empty. -/
def waylandHost : Host :=
  { linuxHost with
    PathCombine := fun a b => if a = "" then b else if b = "" then a else a ++ "/" ++ b
    environment := fun name => if name = "WAYLAND_DISPLAY" then some "wayland-0" else none }

/-- The same desktop in an X11 session on display `:1`, with `WAYLAND_DISPLAY`
not set. -/
def x11Host : Host :=
  { waylandHost with
    environment := fun name => if name = "DISPLAY" then some ":1" else none }

/-- The same desktop with `WAYLAND_DISPLAY` set to the absolute path of the
socket, and a `DISPLAY` forwarded from another machine. -/
def waylandSocketHost : Host :=
  { waylandHost with
    environment := fun name =>
      if name = "WAYLAND_DISPLAY" then some "/run/user/1000/wayland-1"
      else if name = "DISPLAY" then some "localhost:10.0"
      else none }

/-! ## Theorems -/

/-- The start calls of two runs of effects, one after the other. -/
theorem started_append (a b : List Effect) : started (a ++ b) = started a ++ started b := by
  induction a with
  | nil => rfl
  | cons e es ih => cases e <;> simp [started, ih]

/-- The failures of two runs of effects, one after the other. -/
theorem failures_append (a b : List Effect) : failures (a ++ b) = failures a ++ failures b := by
  induction a with
  | nil => rfl
  | cons e es ih => cases e <;> simp [failures, ih]

/-- The writes of two runs of effects, one after the other. -/
theorem written_append (a b : List Effect) : written (a ++ b) = written a ++ written b := by
  induction a with
  | nil => rfl
  | cons e es ih => cases e <;> simp [written, ih]

/-- The GameMode registration starts no process. -/
theorem started_gamemodeEffects (h : Host) : started (gamemodeEffects h) = [] := by
  unfold gamemodeEffects
  cases h.platform <;> dsimp only <;> (try split_ifs) <;> rfl

/-- The GameMode registration reports no failure. -/
theorem failures_gamemodeEffects (h : Host) : failures (gamemodeEffects h) = [] := by
  unfold gamemodeEffects
  cases h.platform <;> dsimp only <;> (try split_ifs) <;> rfl

/-- The wrapper-not-found message with its place marker filled. -/
theorem qArg_reasonNoWrapper (w : String) :
    qArg reasonNoWrapper w = "The wrapper command \"" ++ w ++ "\" couldn't be found." := by
  apply String.ext
  simp [qArg, reasonNoWrapper, argChars]

/-- The assembly starts no process. -/
theorem started_assemblyEffects (h : Host) : started (assemblyEffects h) = [] := rfl

/-- The assembly reports no failure. -/
theorem failures_assemblyEffects (h : Host) : failures (assemblyEffects h) = [] := rfl

/-- The function `shortPathName` returns what `GetShortPathNameW` finds, and
throws where that call fails. -/
theorem shortPathName_eq (h : Host) (file : String) :
    shortPathName h file = h.GetShortPathNameW file := by
  unfold shortPathName
  cases h.GetShortPathNameW file with
  | none => simp
  | some short =>
    have hlen : ¬ ((short.data.length : Int) + 1 - 1 < 0) := by omega
    simp only [Option.getD_some, hlen, if_false]
    have htake : ((short.data.length : Int) + 1 - 1).toNat = short.data.length := by omega
    rw [htake, List.take_length]

/-- The loop over the class path rewrites each entry in place when every
entry that does not fit has a short path name. -/
theorem processed_eq_some (h : Host) (items : List String)
    (hshort : ∀ item ∈ items, fitsInLocal8bit h item = false →
      h.GetShortPathNameW item ≠ none) :
    processed h items
      = some (items.map (fun item =>
          if fitsInLocal8bit h item = false then (h.GetShortPathNameW item).getD item
          else item)) := by
  induction items with
  | nil => rfl
  | cons item items ih =>
    have hrest := ih (fun x hx => hshort x (by simp [hx]))
    cases hfit : fitsInLocal8bit h item with
    | true => simp [processed, hfit, hrest]
    | false =>
      cases hname : h.GetShortPathNameW item with
      | none => exact absurd hname (hshort item (by simp) hfit)
      | some short => simp [processed, hfit, hrest, shortPathName_eq, hname]

/-- The loop over the class path ends without an exception only when every
entry that does not fit has a short path name. -/
theorem processed_some (h : Host) (items out : List String)
    (hout : processed h items = some out) :
    ∀ item ∈ items, fitsInLocal8bit h item = false → h.GetShortPathNameW item ≠ none := by
  induction items generalizing out with
  | nil => simp
  | cons item items ih =>
    intro x hx hfit
    cases hrest : processed h items with
    | none =>
      cases hfit0 : fitsInLocal8bit h item <;>
        cases hname : shortPathName h item <;>
          simp [processed, hfit0, hname, hrest] at hout
    | some rest =>
      rcases List.mem_cons.mp hx with rfl | hmem
      · intro hnone
        rw [← shortPathName_eq] at hnone
        simp [processed, hfit, hnone] at hout
      · exact ih rest hrest x hmem hfit

/-- The arguments of the Java invocation when no call of `shortPathName`
throws: in a Windows build, when every path that does not fit in the local
8 bit encoding has a short path name. -/
theorem javaArgs_eq_some (h : Host) (jarPath : String)
    (hshort : h.platform = .Windows →
      ∀ path ∈ h.getNativePath :: jarPath :: h.getClassPath,
        fitsInLocal8bit h path = false → h.GetShortPathNameW path ≠ none) :
    javaArgs h jarPath
      = some (h.javaArguments ++
          ["-Djava.library.path=" ++
              (if h.platform = .Windows ∧ fitsInLocal8bit h h.getNativePath = false
                then (h.GetShortPathNameW h.getNativePath).getD h.getNativePath
                else h.getNativePath),
            "-cp",
            join (if h.platform = .Windows then ";" else ":")
              (([jarPath] ++ h.getClassPath).map (fun item =>
                if h.platform = .Windows ∧ fitsInLocal8bit h item = false
                  then (h.GetShortPathNameW item).getD item else item)),
            "org.prismlauncher.EntryPoint"]) := by
  cases hp : h.platform with
  | Windows =>
    have hall := hshort hp
    have hcp := processed_eq_some h (jarPath :: h.getClassPath)
      (fun item hitem => hall item (by simp at hitem; simp [hitem]))
    have hnat : natPathArg h = some ("-Djava.library.path=" ++
        (if fitsInLocal8bit h h.getNativePath = false
          then (h.GetShortPathNameW h.getNativePath).getD h.getNativePath
          else h.getNativePath)) := by
      unfold natPathArg
      cases hfit : fitsInLocal8bit h h.getNativePath with
      | true => simp [hp, hfit]
      | false =>
        cases hname : h.GetShortPathNameW h.getNativePath with
        | none => exact absurd hname (hall _ (by simp) hfit)
        | some short => simp [hp, hfit, shortPathName_eq, hname]
    simp [javaArgs, hnat, classPathArg, classPath, hp, hcp]
  | Linux => simp [javaArgs, natPathArg, classPathArg, classPath, hp]
  | Other => simp [javaArgs, natPathArg, classPathArg, classPath, hp]

/-- The arguments of the Java invocation exist only when no call of
`shortPathName` throws. -/
theorem javaArgs_some (h : Host) (jarPath : String) (args : List String)
    (hargs : javaArgs h jarPath = some args) :
    h.platform = .Windows →
      ∀ path ∈ h.getNativePath :: jarPath :: h.getClassPath,
        fitsInLocal8bit h path = false → h.GetShortPathNameW path ≠ none := by
  intro hp path hpath hfit
  unfold javaArgs at hargs
  cases hnat : natPathArg h with
  | none => simp [hnat] at hargs
  | some natArg =>
    cases hcp : classPathArg h jarPath with
    | none => simp [hnat, hcp] at hargs
    | some cpArg =>
      rcases List.mem_cons.mp hpath with rfl | hrest
      · intro hnone
        rw [← shortPathName_eq] at hnone
        simp [natPathArg, hp, hfit, hnone] at hnat
      · simp only [classPathArg, hp, Option.map_eq_some'] at hcp
        obtain ⟨items, hitems, -⟩ := hcp
        exact processed_some h _ items hitems path hrest hfit

/-- The sandbox section wraps the invocation exactly when sandboxing is
requested and available. -/
theorem sandboxSection_eq (h : Host) (jarPath : String) (args : List String) :
    sandboxSection h jarPath args
      = if (wantSandbox h && canSandbox h) = true
        then bwrapArgs h jarPath ++ args
        else args := by
  unfold sandboxSection canSandbox
  cases h.platform <;> simp

/-- The list `args` behind the sandbox section, from the arguments of the Java
invocation. -/
theorem sandboxedInvocation_eq (h : Host) (jarPath : String) (args : List String)
    (hargs : javaArgs h jarPath = some args) :
    javaInvocation h jarPath = some (h.ResolveExecutable (h.settingsString "JavaPath") :: args)
      ∧ sandboxedInvocation h jarPath
        = some (if (wantSandbox h && canSandbox h) = true
            then bwrapArgs h jarPath ++ h.ResolveExecutable (h.settingsString "JavaPath") :: args
            else h.ResolveExecutable (h.settingsString "JavaPath") :: args) := by
  simp [sandboxedInvocation, javaInvocation, hargs, sandboxSection_eq]

/-- On a build other than the Windows one the arguments of the Java
invocation always exist. -/
theorem javaArgs_isSome_off_windows (h : Host) (jarPath : String)
    (hp : h.platform ≠ .Windows) : ∃ args, javaArgs h jarPath = some args :=
  ⟨_, javaArgs_eq_some h jarPath (fun hw => absurd hw hp)⟩
/-- Appending to a list keeps its first element. -/
theorem head_kept_append {tool : String} {front extra : List String}
    (hfront : ∃ rest, front = [tool] ++ rest) : ∃ rest, front ++ extra = [tool] ++ rest := by
  obtain ⟨rest, rfl⟩ := hfront
  exact ⟨rest ++ extra, by simp⟩

/-- Appending a last element to a list keeps its first element. -/
theorem head_kept_last {tool last : String} {front : List String}
    (hfront : ∃ rest, front = [tool] ++ rest) :
    ∃ rest, front ++ [last] = [tool] ++ rest ++ [last] := by
  obtain ⟨rest, rfl⟩ := hfront
  exact ⟨rest, rfl⟩

/-- The list `bwrapArgs` starts with the sandbox tool and ends with `--`. -/
theorem bwrapArgs_shape (h : Host) (jarPath : String) :
    ∃ sandboxArgs, bwrapArgs h jarPath = [h.getBwrapBinary] ++ sandboxArgs ++ ["--"] := by
  unfold bwrapArgs
  dsimp only
  apply head_kept_last
  iterate 18 apply head_kept_append
  exact ⟨[], rfl⟩


/-- A run that does not find the support jar. -/
theorem executeTask_no_jar (h : Host) (self : LauncherPartLaunch)
    (hjar : h.getJarPath "NewLaunch.jar" = "") :
    executeTask h self
      = .returned self [.logLine (h.tr reasonNoJar) .Fatal, .emitFailed (h.tr reasonNoJar)] := by
  unfold executeTask
  dsimp only
  rw [if_pos hjar]

/-- A run in which `shortPathName` throws. -/
theorem executeTask_threw (h : Host) (self : LauncherPartLaunch)
    (hjar : h.getJarPath "NewLaunch.jar" ≠ "")
    (hargs : javaArgs h (h.getJarPath "NewLaunch.jar") = none) :
    executeTask h self = .threw (assemblyEffects h) := by
  unfold executeTask
  dsimp only
  rw [if_neg hjar, hargs]

/-- A run that finds sandboxing requested and not available. -/
theorem executeTask_no_sandbox (h : Host) (self : LauncherPartLaunch) (args : List String)
    (hjar : h.getJarPath "NewLaunch.jar" ≠ "")
    (hargs : javaArgs h (h.getJarPath "NewLaunch.jar") = some args)
    (hsb : (wantSandbox h && !canSandbox h) = true) :
    executeTask h self
      = .returned { self with m_launchScript := h.createLaunchScript }
          (assemblyEffects h ++ [.qDebug (join " " args)] ++
            [.logLine (h.tr reasonNoSandbox) .Error, .emitFailed (h.tr reasonNoSandbox)]) := by
  unfold executeTask
  dsimp only
  rw [if_neg hjar, hargs]
  dsimp only
  rw [if_pos hsb]

/-- A run that reaches `takeFirst` on an empty split of the wrapper command. -/
theorem executeTask_empty_split (h : Host) (self : LauncherPartLaunch) (args : List String)
    (hjar : h.getJarPath "NewLaunch.jar" ≠ "")
    (hargs : javaArgs h (h.getJarPath "NewLaunch.jar") = some args)
    (hsb : ¬ (wantSandbox h && !canSandbox h) = true)
    (hne : trimmed h.getWrapperCommand ≠ "")
    (hsplit : h.splitArgs (trimmed h.getWrapperCommand) = []) :
    executeTask h self
      = .undefined (assemblyEffects h ++ [.qDebug (join " " args)] ++
          [.qDebug (join " " (sandboxSection h (h.getJarPath "NewLaunch.jar")
            (h.ResolveExecutable (h.settingsString "JavaPath") :: args)))]) := by
  unfold executeTask
  dsimp only
  rw [if_neg hjar, hargs]
  dsimp only
  rw [if_neg hsb, if_pos hne, hsplit]

/-- A run that does not find the first word of the wrapper command. -/
theorem executeTask_no_wrapper (h : Host) (self : LauncherPartLaunch) (args : List String)
    (w : String) (ws : List String)
    (hjar : h.getJarPath "NewLaunch.jar" ≠ "")
    (hargs : javaArgs h (h.getJarPath "NewLaunch.jar") = some args)
    (hsb : ¬ (wantSandbox h && !canSandbox h) = true)
    (hne : trimmed h.getWrapperCommand ≠ "")
    (hsplit : h.splitArgs (trimmed h.getWrapperCommand) = w :: ws)
    (hfind : h.findExecutable w = "") :
    executeTask h self
      = .returned { self with m_launchScript := h.createLaunchScript }
          (assemblyEffects h ++ [.qDebug (join " " args)] ++
            [.qDebug (join " " (sandboxSection h (h.getJarPath "NewLaunch.jar")
              (h.ResolveExecutable (h.settingsString "JavaPath") :: args)))] ++
            [.logLine (qArg reasonNoWrapper w) .Fatal,
             .emitFailed (qArg (h.tr reasonNoWrapper) w)]) := by
  unfold executeTask
  dsimp only
  rw [if_neg hjar, hargs]
  dsimp only
  rw [if_neg hsb, if_pos hne, hsplit]
  dsimp only
  rw [if_pos hfind]

/-- A run that starts the process behind a wrapper command. -/
theorem executeTask_wrapped (h : Host) (self : LauncherPartLaunch) (args : List String)
    (w : String) (ws : List String)
    (hjar : h.getJarPath "NewLaunch.jar" ≠ "")
    (hargs : javaArgs h (h.getJarPath "NewLaunch.jar") = some args)
    (hsb : ¬ (wantSandbox h && !canSandbox h) = true)
    (hne : trimmed h.getWrapperCommand ≠ "")
    (hsplit : h.splitArgs (trimmed h.getWrapperCommand) = w :: ws)
    (hfind : h.findExecutable w ≠ "") :
    executeTask h self
      = .returned { self with m_launchScript := h.createLaunchScript }
          (assemblyEffects h ++ [.qDebug (join " " args)] ++
            [.qDebug (join " " (sandboxSection h (h.getJarPath "NewLaunch.jar")
              (h.ResolveExecutable (h.settingsString "JavaPath") :: args)))] ++
            [.logLine ("Wrapper command is:\n" ++ trimmed h.getWrapperCommand ++ "\n\n")
                .Launcher,
             .start w (ws ++ sandboxSection h (h.getJarPath "NewLaunch.jar")
              (h.ResolveExecutable (h.settingsString "JavaPath") :: args))] ++
            gamemodeEffects h) := by
  unfold executeTask
  dsimp only
  rw [if_neg hjar, hargs]
  dsimp only
  rw [if_neg hsb, if_pos hne, hsplit]
  dsimp only
  rw [if_neg hfind]

/-- A run that starts the process without a wrapper command. -/
theorem executeTask_plain (h : Host) (self : LauncherPartLaunch) (args : List String)
    (program : String) (arguments : List String)
    (hjar : h.getJarPath "NewLaunch.jar" ≠ "")
    (hargs : javaArgs h (h.getJarPath "NewLaunch.jar") = some args)
    (hsb : ¬ (wantSandbox h && !canSandbox h) = true)
    (hwrap : trimmed h.getWrapperCommand = "")
    (hsection : sandboxSection h (h.getJarPath "NewLaunch.jar")
      (h.ResolveExecutable (h.settingsString "JavaPath") :: args) = program :: arguments) :
    executeTask h self
      = .returned { self with m_launchScript := h.createLaunchScript }
          (assemblyEffects h ++ [.qDebug (join " " args)] ++
            [.qDebug (join " " (program :: arguments))] ++
            [.start program arguments] ++ gamemodeEffects h) := by
  unfold executeTask
  dsimp only
  rw [if_neg hjar, hargs]
  dsimp only
  rw [if_neg hsb, if_neg (not_not.mpr hwrap), hsection]

/-- The sandbox section leaves a list with a first element. -/
theorem sandboxSection_cons (h : Host) (jarPath : String) (first : String)
    (rest : List String) :
    ∃ program arguments, sandboxSection h jarPath (first :: rest) = program :: arguments
      ∧ program :: arguments
        = (if (wantSandbox h && canSandbox h) = true then bwrapArgs h jarPath else [])
            ++ first :: rest := by
  rw [sandboxSection_eq]
  split
  · obtain ⟨sandboxArgs, hshape⟩ := bwrapArgs_shape h jarPath
    exact ⟨h.getBwrapBinary, sandboxArgs ++ ["--"] ++ first :: rest, by simp [hshape], by
      simp [hshape]⟩
  · exact ⟨first, rest, rfl, by simp⟩

/-- No run of `executeTask` calls `m_process.start` more than once, and what
it starts is the words of the wrapper command, the sandbox arguments when
sandboxing is active, the resolved interpreter and the arguments of the Java
invocation. -/
theorem spawned_eq (h : Host) (self : LauncherPartLaunch) :
    spawned h self = [] ∨
      ∃ args, javaArgs h (h.getJarPath "NewLaunch.jar") = some args
        ∧ h.getJarPath "NewLaunch.jar" ≠ ""
        ∧ ¬ (wantSandbox h && !canSandbox h) = true
        ∧ spawned h self
            = [(if trimmed h.getWrapperCommand = "" then []
                  else h.splitArgs (trimmed h.getWrapperCommand))
                ++ (if (wantSandbox h && canSandbox h) = true
                    then bwrapArgs h (h.getJarPath "NewLaunch.jar") else [])
                ++ h.ResolveExecutable (h.settingsString "JavaPath") :: args] := by
  by_cases hjar : h.getJarPath "NewLaunch.jar" = ""
  · left
    simp [spawned, executeTask_no_jar h self hjar, started]
  · cases hargs : javaArgs h (h.getJarPath "NewLaunch.jar") with
    | none =>
      left
      simp [spawned, executeTask_threw h self hjar hargs]
    | some args =>
      by_cases hsb : (wantSandbox h && !canSandbox h) = true
      · left
        simp [spawned, executeTask_no_sandbox h self args hjar hargs hsb, started_append,
          started, started_assemblyEffects]
      · by_cases hwrap : trimmed h.getWrapperCommand = ""
        · right
          obtain ⟨program, arguments, hsection, hlist⟩ := sandboxSection_cons h
            (h.getJarPath "NewLaunch.jar") (h.ResolveExecutable (h.settingsString "JavaPath"))
            args
          refine ⟨args, rfl, hjar, hsb, ?_⟩
          simp only [spawned, executeTask_plain h self args program arguments hjar hargs hsb
            hwrap hsection, started_append, started, started_assemblyEffects,
            started_gamemodeEffects, hwrap, if_true, List.nil_append, List.append_nil, hlist]
          simp [started_gamemodeEffects]
        · cases hsplit : h.splitArgs (trimmed h.getWrapperCommand) with
          | nil =>
            left
            simp [spawned, executeTask_empty_split h self args hjar hargs hsb hwrap hsplit]
          | cons w ws =>
            by_cases hfind : h.findExecutable w = ""
            · left
              simp [spawned, executeTask_no_wrapper h self args w ws hjar hargs hsb hwrap
                hsplit hfind, started_append, started, started_assemblyEffects]
            · right
              refine ⟨args, rfl, hjar, hsb, ?_⟩
              simp only [spawned, executeTask_wrapped h self args w ws hjar hargs hsb hwrap
                hsplit hfind, started_append, started, started_assemblyEffects,
                started_gamemodeEffects, hwrap, if_false, List.nil_append, List.append_nil,
                sandboxSection_eq]
              split <;> simp [started_gamemodeEffects]

/-- The sandbox tool is not available off Linux and without its binary. -/
theorem canSandbox_eq_false (h : Host)
    (hcan : h.platform ≠ .Linux ∨ h.getBwrapBinary = "") : canSandbox h = false := by
  unfold canSandbox
  cases hp : h.platform <;> simp_all

/-- The sandbox tool is available exactly on Linux with its binary found. -/
theorem canSandbox_eq_true (h : Host) :
    canSandbox h = true ↔ h.platform = .Linux ∧ h.getBwrapBinary ≠ "" := by
  unfold canSandbox
  cases hp : h.platform <;> simp

/-- Sandboxing is active exactly when it is requested in a Linux build that
found the sandbox tool. -/
theorem sandbox_active_iff (h : Host) :
    (wantSandbox h && canSandbox h) = true
      ↔ (h.settingsBool "EnableSandboxing" = true ∧ h.platform = .Linux
          ∧ h.getBwrapBinary ≠ "") := by
  rw [Bool.and_eq_true, canSandbox_eq_true]
  rfl

/-- The sandbox check fails exactly when sandboxing is requested and the build
is not a Linux one or did not find the sandbox tool. -/
theorem sandbox_unavailable_iff (h : Host) :
    (wantSandbox h && !canSandbox h) = true
      ↔ (h.settingsBool "EnableSandboxing" = true
          ∧ (h.platform ≠ .Linux ∨ h.getBwrapBinary = "")) := by
  have hcan := canSandbox_eq_true h
  cases hc : canSandbox h
  · have hno : ¬ (h.platform = .Linux ∧ h.getBwrapBinary ≠ "") := by
      rw [← hcan, hc]
      simp
    simp only [wantSandbox, Bool.not_false, Bool.and_true]
    constructor
    · intro hw
      refine ⟨hw, ?_⟩
      by_cases hp : h.platform = .Linux
      · exact Or.inr (by_contra fun hb => hno ⟨hp, hb⟩)
      · exact Or.inl hp
    · exact fun hboth => hboth.1
  · have hyes := hcan.mp hc
    simp only [wantSandbox, Bool.not_true, Bool.and_false, Bool.false_eq_true, false_iff]
    rintro ⟨-, hp | hb⟩
    · exact hp hyes.1
    · exact hyes.2 hb

/-- C1, as amended.  When sandboxing is requested and the sandbox tool is not
available, no run of `executeTask` calls `m_process.start`.  When the support
jar is not found, the run returns with one failure, the missing-library one.
When it is found, the run returns with one failure, the sandbox-unavailable
one, which is logged at level `Error` as well; in a Windows build this is
stated for the runs in which every path that does not fit in the local 8 bit
encoding has a short path name. -/
theorem executeTask_sandbox_unavailable (h : Host) (self : LauncherPartLaunch)
    (hwant : h.settingsBool "EnableSandboxing" = true)
    (hcan : h.platform ≠ .Linux ∨ h.getBwrapBinary = "") :
    started (executeTask h self).effects = []
      ∧ (h.getJarPath "NewLaunch.jar" = "" →
          executeTask h self
            = .returned self
                [.logLine (h.tr "Launcher library could not be found. Please check your installation.") .Fatal, .emitFailed (h.tr "Launcher library could not be found. Please check your installation.")])
      ∧ (h.getJarPath "NewLaunch.jar" ≠ "" →
          (h.platform = .Windows →
            ∀ path ∈ h.getNativePath :: h.getJarPath "NewLaunch.jar" :: h.getClassPath,
              fitsInLocal8bit h path = false → h.GetShortPathNameW path ≠ none) →
          ∃ effects,
            executeTask h self
                = .returned { self with m_launchScript := h.createLaunchScript } effects
              ∧ failures effects = [h.tr "Sandboxing was requested, but is NOT available on your system.\nPlease turn off sandboxing to proceed launching."]
              ∧ Effect.logLine (h.tr "Sandboxing was requested, but is NOT available on your system.\nPlease turn off sandboxing to proceed launching.") .Error ∈ effects) := by
  have hsb : (wantSandbox h && !canSandbox h) = true := by
    simp [wantSandbox, hwant, canSandbox_eq_false h hcan]
  refine ⟨?_, executeTask_no_jar h self, ?_⟩
  · by_cases hjar : h.getJarPath "NewLaunch.jar" = ""
    · simp [executeTask_no_jar h self hjar, Ending.effects, started]
    · cases hargs : javaArgs h (h.getJarPath "NewLaunch.jar") with
      | none => simp [executeTask_threw h self hjar hargs, Ending.effects,
          started_assemblyEffects]
      | some args =>
        simp [executeTask_no_sandbox h self args hjar hargs hsb, Ending.effects,
          started_append, started, started_assemblyEffects]
  · intro hjar hshort
    have hargs := javaArgs_eq_some h (h.getJarPath "NewLaunch.jar") hshort
    exact ⟨_, executeTask_no_sandbox h self _ hjar hargs hsb,
      by simp [failures_append, failures, failures_assemblyEffects, reasonNoSandbox],
      by simp [reasonNoSandbox]⟩

/-- C1 fails as stated: with sandboxing requested, no sandbox tool and the
support jar missing, the failure `executeTask` reports is the missing-library
one, not the sandbox-unavailable one. -/
theorem sandbox_error_masked_by_missing_jar :
    noJarNoBwrapHost.settingsBool "EnableSandboxing" = true
      ∧ canSandbox noJarNoBwrapHost = false
      ∧ executeTask noJarNoBwrapHost freshStep
        = .returned freshStep
            [.logLine "Launcher library could not be found. Please check your installation."
                .Fatal,
              .emitFailed
                "Launcher library could not be found. Please check your installation."]
      ∧ failures (executeTask noJarNoBwrapHost freshStep).effects
        ≠ [noJarNoBwrapHost.tr "Sandboxing was requested, but is NOT available on your system.\nPlease turn off sandboxing to proceed launching."] := by
  decide

/-- The hypotheses of `executeTask_sandbox_unavailable` hold on a Linux desktop
without the sandbox tool. -/
theorem executeTask_sandbox_unavailable_witness :
    (noBwrapHost.settingsBool "EnableSandboxing" = true
      ∧ (noBwrapHost.platform ≠ .Linux ∨ noBwrapHost.getBwrapBinary = ""))
    ∧ (started (executeTask noBwrapHost freshStep).effects = []
      ∧ (noBwrapHost.getJarPath "NewLaunch.jar" = "" →
          executeTask noBwrapHost freshStep
            = .returned freshStep
                [.logLine (noBwrapHost.tr "Launcher library could not be found. Please check your installation.") .Fatal,
                 .emitFailed (noBwrapHost.tr "Launcher library could not be found. Please check your installation.")])
      ∧ (noBwrapHost.getJarPath "NewLaunch.jar" ≠ "" →
          (noBwrapHost.platform = .Windows →
            ∀ path ∈ noBwrapHost.getNativePath :: noBwrapHost.getJarPath "NewLaunch.jar"
                :: noBwrapHost.getClassPath,
              fitsInLocal8bit noBwrapHost path = false →
                noBwrapHost.GetShortPathNameW path ≠ none) →
          ∃ effects,
            executeTask noBwrapHost freshStep
                = .returned { freshStep with m_launchScript := noBwrapHost.createLaunchScript }
                    effects
              ∧ failures effects = [noBwrapHost.tr "Sandboxing was requested, but is NOT available on your system.\nPlease turn off sandboxing to proceed launching."]
              ∧ Effect.logLine (noBwrapHost.tr "Sandboxing was requested, but is NOT available on your system.\nPlease turn off sandboxing to proceed launching.") .Error ∈ effects)) :=
  ⟨by decide, executeTask_sandbox_unavailable noBwrapHost freshStep (by decide)
    (Or.inr (by decide))⟩

/-- C2, as amended.  When the trimmed wrapper command is not empty and its
first word is not on the search path, no run of `executeTask` calls
`m_process.start`.  The run returns with one failure: the missing-library one
when the support jar is not found; else the sandbox-unavailable one when
sandboxing is requested and not available; else the wrapper-not-found message
filled with the word, with a line logged at level `Fatal` that names the word.
In a Windows build the last two are stated for the runs in which every path
that does not fit in the local 8 bit encoding has a short path name. -/
theorem executeTask_wrapper_not_found (h : Host) (self : LauncherPartLaunch)
    (w : String) (ws : List String)
    (hne : trimmed h.getWrapperCommand ≠ "")
    (hsplit : h.splitArgs (trimmed h.getWrapperCommand) = w :: ws)
    (hfind : h.findExecutable w = "") :
    started (executeTask h self).effects = []
      ∧ (h.getJarPath "NewLaunch.jar" = "" →
          executeTask h self
            = .returned self
                [.logLine (h.tr "Launcher library could not be found. Please check your installation.") .Fatal, .emitFailed (h.tr "Launcher library could not be found. Please check your installation.")])
      ∧ (h.getJarPath "NewLaunch.jar" ≠ "" →
          (h.platform = .Windows →
            ∀ path ∈ h.getNativePath :: h.getJarPath "NewLaunch.jar" :: h.getClassPath,
              fitsInLocal8bit h path = false → h.GetShortPathNameW path ≠ none) →
          ∃ effects,
            executeTask h self
                = .returned { self with m_launchScript := h.createLaunchScript } effects
              ∧ ((h.settingsBool "EnableSandboxing" = true
                    ∧ (h.platform ≠ .Linux ∨ h.getBwrapBinary = "") →
                  failures effects = [h.tr "Sandboxing was requested, but is NOT available on your system.\nPlease turn off sandboxing to proceed launching."])
                ∧ (¬ (h.settingsBool "EnableSandboxing" = true
                    ∧ (h.platform ≠ .Linux ∨ h.getBwrapBinary = "")) →
                  failures effects = [qArg (h.tr "The wrapper command \"%1\" couldn't be found.") w]
                    ∧ Effect.logLine
                        ("The wrapper command \"" ++ w ++ "\" couldn't be found.") .Fatal
                      ∈ effects))) := by
  have hsb_iff := sandbox_unavailable_iff h
  refine ⟨?_, executeTask_no_jar h self, ?_⟩
  · by_cases hjar : h.getJarPath "NewLaunch.jar" = ""
    · simp [executeTask_no_jar h self hjar, Ending.effects, started]
    · cases hargs : javaArgs h (h.getJarPath "NewLaunch.jar") with
      | none => simp [executeTask_threw h self hjar hargs, Ending.effects,
          started_assemblyEffects]
      | some args =>
        by_cases hsb : (wantSandbox h && !canSandbox h) = true
        · simp [executeTask_no_sandbox h self args hjar hargs hsb, Ending.effects,
            started_append, started, started_assemblyEffects]
        · simp [executeTask_no_wrapper h self args w ws hjar hargs hsb hne hsplit hfind,
            Ending.effects, started_append, started, started_assemblyEffects]
  · intro hjar hshort
    have hargs := javaArgs_eq_some h (h.getJarPath "NewLaunch.jar") hshort
    by_cases hsb : (wantSandbox h && !canSandbox h) = true
    · refine ⟨_, executeTask_no_sandbox h self _ hjar hargs hsb, ?_, ?_⟩
      · intro _
        simp [failures_append, failures, failures_assemblyEffects, reasonNoSandbox]
      · intro hnot
        exact absurd (hsb_iff.mp hsb) hnot
    · refine ⟨_, executeTask_no_wrapper h self _ w ws hjar hargs hsb hne hsplit hfind, ?_, ?_⟩
      · intro hboth
        exact absurd (hsb_iff.mpr hboth) hsb
      · intro _
        rw [← qArg_reasonNoWrapper]
        exact ⟨by simp [failures_append, failures, failures_assemblyEffects, reasonNoWrapper],
          by simp⟩

/-- C2 fails as stated: with a wrapper command that is not on the search path,
sandboxing requested and no sandbox tool, the failure `executeTask` reports is
the sandbox-unavailable one, not the wrapper-not-found one. -/
theorem wrapper_error_masked_by_missing_sandbox :
    trimmed noBwrapWrapperHost.getWrapperCommand ≠ ""
      ∧ noBwrapWrapperHost.splitArgs (trimmed noBwrapWrapperHost.getWrapperCommand)
        = ["primus-run"]
      ∧ noBwrapWrapperHost.findExecutable "primus-run" = ""
      ∧ failures (executeTask noBwrapWrapperHost freshStep).effects
        = ["Sandboxing was requested, but is NOT available on your system.\nPlease turn off sandboxing to proceed launching."]
      ∧ failures (executeTask noBwrapWrapperHost freshStep).effects
        ≠ ["The wrapper command \"primus-run\" couldn't be found."] := by
  decide

/-- The hypotheses of `executeTask_wrapper_not_found` hold for the wrapper
command `primus-run --fast`. -/
theorem executeTask_wrapper_not_found_witness :
    (trimmed missingWrapperHost.getWrapperCommand ≠ ""
      ∧ missingWrapperHost.splitArgs (trimmed missingWrapperHost.getWrapperCommand)
        = "primus-run" :: ["--fast"]
      ∧ missingWrapperHost.findExecutable "primus-run" = "")
    ∧ failures (executeTask missingWrapperHost freshStep).effects
        = ["The wrapper command \"primus-run\" couldn't be found."]
    ∧ started (executeTask missingWrapperHost freshStep).effects = [] :=
  ⟨by decide, by decide,
    (executeTask_wrapper_not_found missingWrapperHost freshStep "primus-run" ["--fast"]
      (by decide) (by decide) (by decide)).1⟩

/-- A run without a wrapper command that passes the checks returns after one
call of `m_process.start`. -/
theorem executeTask_plain_returned (h : Host) (self : LauncherPartLaunch)
    (args : List String)
    (hjar : h.getJarPath "NewLaunch.jar" ≠ "")
    (hargs : javaArgs h (h.getJarPath "NewLaunch.jar") = some args)
    (hsb : ¬ (wantSandbox h && !canSandbox h) = true)
    (hwrap : trimmed h.getWrapperCommand = "") :
    ∃ effects,
      executeTask h self = .returned { self with m_launchScript := h.createLaunchScript } effects
        ∧ started effects
          = [(if (wantSandbox h && canSandbox h) = true
                then bwrapArgs h (h.getJarPath "NewLaunch.jar") else [])
              ++ h.ResolveExecutable (h.settingsString "JavaPath") :: args]
        ∧ failures effects = [] := by
  obtain ⟨program, arguments, hsection, hlist⟩ := sandboxSection_cons h
    (h.getJarPath "NewLaunch.jar") (h.ResolveExecutable (h.settingsString "JavaPath")) args
  refine ⟨_, executeTask_plain h self args program arguments hjar hargs hsb hwrap hsection,
    ?_, ?_⟩
  · rw [← hlist]
    simp [started_append, started, started_assemblyEffects, started_gamemodeEffects]
  · simp [failures_append, failures, failures_assemblyEffects, failures_gamemodeEffects]

/-- A run with a wrapper command on the search path that passes the checks
returns after one call of `m_process.start`. -/
theorem executeTask_wrapped_returned (h : Host) (self : LauncherPartLaunch)
    (args : List String) (w : String) (ws : List String)
    (hjar : h.getJarPath "NewLaunch.jar" ≠ "")
    (hargs : javaArgs h (h.getJarPath "NewLaunch.jar") = some args)
    (hsb : ¬ (wantSandbox h && !canSandbox h) = true)
    (hne : trimmed h.getWrapperCommand ≠ "")
    (hsplit : h.splitArgs (trimmed h.getWrapperCommand) = w :: ws)
    (hfind : h.findExecutable w ≠ "") :
    ∃ effects,
      executeTask h self = .returned { self with m_launchScript := h.createLaunchScript } effects
        ∧ started effects
          = [w :: ws ++ (if (wantSandbox h && canSandbox h) = true
                then bwrapArgs h (h.getJarPath "NewLaunch.jar") else [])
              ++ h.ResolveExecutable (h.settingsString "JavaPath") :: args]
        ∧ failures effects = [] := by
  refine ⟨_, executeTask_wrapped h self args w ws hjar hargs hsb hne hsplit hfind, ?_, ?_⟩
  · rw [sandboxSection_eq]
    split <;>
      simp [started_append, started, started_assemblyEffects, started_gamemodeEffects]
  · simp [failures_append, failures, failures_assemblyEffects, failures_gamemodeEffects]

/-- C3, as amended.  A run of `executeTask` does not look at what the resolver
returns: with the support jar found, sandboxing not requested, no wrapper
command and a Java path that resolves to the empty string, it returns after
calling `m_process.start` once, with the empty string as program and the
assembled arguments, and reports no failure.  The failure is reported by
`on_state` when the process signals `FailedToStart`.  In a Windows build this
is stated for the runs in which every path that does not fit in the local
8 bit encoding has a short path name. -/
theorem executeTask_unresolved_java_started (h : Host) (self : LauncherPartLaunch)
    (m_process : LoggedProcess)
    (hjar : h.getJarPath "NewLaunch.jar" ≠ "")
    (hjava : h.ResolveExecutable (h.settingsString "JavaPath") = "")
    (hwant : h.settingsBool "EnableSandboxing" = false)
    (hwrap : trimmed h.getWrapperCommand = "")
    (hshort : h.platform = .Windows →
      ∀ path ∈ h.getNativePath :: h.getJarPath "NewLaunch.jar" :: h.getClassPath,
        fitsInLocal8bit h path = false → h.GetShortPathNameW path ≠ none) :
    ∃ self' effects, executeTask h self = .returned self' effects ∧
      started effects
        = [[""] ++ h.javaArguments ++
            ["-Djava.library.path=" ++
                (if h.platform = .Windows ∧ fitsInLocal8bit h h.getNativePath = false
                  then (h.GetShortPathNameW h.getNativePath).getD h.getNativePath
                  else h.getNativePath),
              "-cp",
              join (if h.platform = .Windows then ";" else ":")
                (([h.getJarPath "NewLaunch.jar"] ++ h.getClassPath).map (fun item =>
                  if h.platform = .Windows ∧ fitsInLocal8bit h item = false
                    then (h.GetShortPathNameW item).getD item else item)),
              "org.prismlauncher.EntryPoint"]] ∧
      failures effects = [] ∧
      failures (on_state h m_process self' .FailedToStart).2
        = [h.tr "Could not launch Minecraft!"] := by
  have hargs := javaArgs_eq_some h (h.getJarPath "NewLaunch.jar") hshort
  have hsb : ¬ (wantSandbox h && !canSandbox h) = true := by simp [wantSandbox, hwant]
  obtain ⟨effects, hrun, hstarted, hfailures⟩ :=
    executeTask_plain_returned h self _ hjar hargs hsb hwrap
  refine ⟨_, effects, hrun, ?_, hfailures, ?_⟩
  · rw [hstarted]
    simp [wantSandbox, hwant, hjava]
  · simp [on_state, failures]

/-- C3 fails as stated: with a Java path that resolves to the empty string,
`executeTask` calls `m_process.start` with the empty program and reports no
failure. -/
theorem unresolved_java_reaches_start :
    noJavaHost.ResolveExecutable (noJavaHost.settingsString "JavaPath") = "" ∧
      started (executeTask noJavaHost freshStep).effects
        = [["", "-Xms512m", "-Xmx4096m",
              "-Djava.library.path=/data/instances/demo/natives", "-cp",
              "/usr/share/PrismLauncher/NewLaunch.jar:/data/libraries/a.jar:/data/libraries/b.jar",
              "org.prismlauncher.EntryPoint"]] ∧
      failures (executeTask noJavaHost freshStep).effects = [] := by
  decide

/-- The hypotheses of `executeTask_unresolved_java_started` hold on a Linux
desktop whose Java path does not resolve. -/
theorem executeTask_unresolved_java_started_witness :
    (noJavaHost.getJarPath "NewLaunch.jar" ≠ "" ∧
      noJavaHost.ResolveExecutable (noJavaHost.settingsString "JavaPath") = "" ∧
      noJavaHost.settingsBool "EnableSandboxing" = false ∧
      trimmed noJavaHost.getWrapperCommand = "" ∧
      (noJavaHost.platform = .Windows →
        ∀ path ∈ noJavaHost.getNativePath :: noJavaHost.getJarPath "NewLaunch.jar"
            :: noJavaHost.getClassPath,
          fitsInLocal8bit noJavaHost path = false →
            noJavaHost.GetShortPathNameW path ≠ none)) ∧
    ∃ self' effects, executeTask noJavaHost freshStep = .returned self' effects ∧
      started effects
        = [[""] ++ noJavaHost.javaArguments ++
            ["-Djava.library.path=" ++
                (if noJavaHost.platform = .Windows
                    ∧ fitsInLocal8bit noJavaHost noJavaHost.getNativePath = false
                  then (noJavaHost.GetShortPathNameW noJavaHost.getNativePath).getD
                    noJavaHost.getNativePath
                  else noJavaHost.getNativePath),
              "-cp",
              join (if noJavaHost.platform = .Windows then ";" else ":")
                (([noJavaHost.getJarPath "NewLaunch.jar"] ++ noJavaHost.getClassPath).map
                  (fun item =>
                    if noJavaHost.platform = .Windows ∧ fitsInLocal8bit noJavaHost item = false
                      then (noJavaHost.GetShortPathNameW item).getD item else item)),
              "org.prismlauncher.EntryPoint"]] ∧
      failures effects = [] ∧
      failures (on_state noJavaHost runningProcess self' .FailedToStart).2
        = [noJavaHost.tr "Could not launch Minecraft!"] :=
  ⟨by decide, executeTask_unresolved_java_started noJavaHost freshStep runningProcess
    (by decide) (by decide) (by decide) (by decide) (by decide)⟩

/-- C4, as amended.  With the support jar found, no sandboxing requested and no
wrapper command, `executeTask` returns after calling `m_process.start` once,
and program and arguments together are the resolved interpreter, the JVM
arguments in their order, the library-path option, `-cp`, the joined class
path and the entry point class last.  The library-path option carries the
native path itself, except in a Windows build when that path does not survive
the local 8 bit round trip: then it carries the short path name.  In a Windows
build this is stated for the runs in which every path that does not fit in the
local 8 bit encoding has a short path name. -/
theorem executeTask_plain_invocation (h : Host) (self : LauncherPartLaunch)
    (hjar : h.getJarPath "NewLaunch.jar" ≠ "")
    (hwant : h.settingsBool "EnableSandboxing" = false)
    (hwrap : trimmed h.getWrapperCommand = "")
    (hshort : h.platform = .Windows →
      ∀ path ∈ h.getNativePath :: h.getJarPath "NewLaunch.jar" :: h.getClassPath,
        fitsInLocal8bit h path = false → h.GetShortPathNameW path ≠ none) :
    ∃ self' effects, executeTask h self = .returned self' effects ∧
      started effects
        = [[h.ResolveExecutable (h.settingsString "JavaPath")] ++ h.javaArguments ++
            ["-Djava.library.path=" ++
                (if h.platform = .Windows ∧ fitsInLocal8bit h h.getNativePath = false
                  then (h.GetShortPathNameW h.getNativePath).getD h.getNativePath
                  else h.getNativePath),
              "-cp",
              join (if h.platform = .Windows then ";" else ":")
                (([h.getJarPath "NewLaunch.jar"] ++ h.getClassPath).map (fun item =>
                  if h.platform = .Windows ∧ fitsInLocal8bit h item = false
                    then (h.GetShortPathNameW item).getD item else item)),
              "org.prismlauncher.EntryPoint"]] ∧
      (h.platform = .Windows → fitsInLocal8bit h h.getNativePath = false →
        ∃ short, h.GetShortPathNameW h.getNativePath = some short
          ∧ shortPathName h h.getNativePath = some short) := by
  have hargs := javaArgs_eq_some h (h.getJarPath "NewLaunch.jar") hshort
  have hsb : ¬ (wantSandbox h && !canSandbox h) = true := by simp [wantSandbox, hwant]
  obtain ⟨effects, hrun, hstarted, -⟩ :=
    executeTask_plain_returned h self _ hjar hargs hsb hwrap
  refine ⟨_, effects, hrun, ?_, ?_⟩
  · rw [hstarted]
    simp [wantSandbox, hwant]
  · intro hp hfit
    cases hname : h.GetShortPathNameW h.getNativePath with
    | none => exact absurd hname (hshort hp _ (by simp) hfit)
    | some short => exact ⟨short, rfl, by rw [shortPathName_eq, hname]⟩

/-- C4 fails as stated: in a Windows build, a native path that does not fit in
the local 8 bit encoding is put on the command line as its short path name. -/
theorem windows_native_path_shortened :
    windowsHost.getJarPath "NewLaunch.jar" ≠ "" ∧
      windowsHost.settingsBool "EnableSandboxing" = false ∧
      trimmed windowsHost.getWrapperCommand = "" ∧
      spawned windowsHost freshStep
        = [["C:/Java/bin/javaw.exe", "-Xms512m", "-Xmx4096m",
              "-Djava.library.path=C:/Users/30B2~1/natives", "-cp",
              "C:/PrismLauncher/jars/NewLaunch.jar;C:/mc/libraries/a.jar;C:/mc/libraries/b.jar",
              "org.prismlauncher.EntryPoint"]] ∧
      spawned windowsHost freshStep
        ≠ [[windowsHost.ResolveExecutable (windowsHost.settingsString "JavaPath")] ++
              windowsHost.javaArguments ++
              ["-Djava.library.path=" ++ windowsHost.getNativePath, "-cp",
                "C:/PrismLauncher/jars/NewLaunch.jar;C:/mc/libraries/a.jar;C:/mc/libraries/b.jar",
                "org.prismlauncher.EntryPoint"]] := by
  decide

/-- The hypotheses of `executeTask_plain_invocation` hold in the Windows build
whose native path has a short path name. -/
theorem executeTask_plain_invocation_witness :
    (windowsHost.getJarPath "NewLaunch.jar" ≠ "" ∧
      windowsHost.settingsBool "EnableSandboxing" = false ∧
      trimmed windowsHost.getWrapperCommand = "" ∧
      (windowsHost.platform = .Windows →
        ∀ path ∈ windowsHost.getNativePath :: windowsHost.getJarPath "NewLaunch.jar"
            :: windowsHost.getClassPath,
          fitsInLocal8bit windowsHost path = false →
            windowsHost.GetShortPathNameW path ≠ none)) ∧
    ∃ self' effects, executeTask windowsHost freshStep = .returned self' effects ∧
      started effects
        = [[windowsHost.ResolveExecutable (windowsHost.settingsString "JavaPath")] ++
            windowsHost.javaArguments ++
            ["-Djava.library.path=" ++
                (if windowsHost.platform = .Windows
                    ∧ fitsInLocal8bit windowsHost windowsHost.getNativePath = false
                  then (windowsHost.GetShortPathNameW windowsHost.getNativePath).getD
                    windowsHost.getNativePath
                  else windowsHost.getNativePath),
              "-cp",
              join (if windowsHost.platform = .Windows then ";" else ":")
                (([windowsHost.getJarPath "NewLaunch.jar"] ++ windowsHost.getClassPath).map
                  (fun item =>
                    if windowsHost.platform = .Windows
                        ∧ fitsInLocal8bit windowsHost item = false
                      then (windowsHost.GetShortPathNameW item).getD item else item)),
              "org.prismlauncher.EntryPoint"]] ∧
      (windowsHost.platform = .Windows →
        fitsInLocal8bit windowsHost windowsHost.getNativePath = false →
        ∃ short, windowsHost.GetShortPathNameW windowsHost.getNativePath = some short
          ∧ shortPathName windowsHost windowsHost.getNativePath = some short) :=
  ⟨by decide, executeTask_plain_invocation windowsHost freshStep
    (by decide) (by decide) (by decide) (by decide)⟩

/-- C5, as amended.  Every invocation `executeTask` hands to `m_process.start`
ends with `-cp`, the joined class path and the entry point class.  The joined
class path is the join, with `;` in a Windows build and `:` otherwise, of the
support jar followed by the class path entries in their order, where a Windows
build replaces, in place, each element that does not survive the local 8 bit
round trip by its short path name, which `shortPathName` returned for it. -/
theorem spawned_class_path_argument (h : Host) (self : LauncherPartLaunch)
    (invocation : List String) (hspawn : invocation ∈ spawned h self) :
    (∃ front, invocation = front ++
      ["-cp",
        join (if h.platform = .Windows then ";" else ":")
          (([h.getJarPath "NewLaunch.jar"] ++ h.getClassPath).map (fun item =>
            if h.platform = .Windows ∧ fitsInLocal8bit h item = false
              then (shortPathName h item).getD item else item)),
        "org.prismlauncher.EntryPoint"])
      ∧ (h.platform = .Windows →
          ∀ item ∈ [h.getJarPath "NewLaunch.jar"] ++ h.getClassPath,
            fitsInLocal8bit h item = false →
              ∃ short, shortPathName h item = some short
                ∧ h.GetShortPathNameW item = some short) := by
  rcases spawned_eq h self with hnone | ⟨args, hargs, -, -, hone⟩
  · rw [hnone] at hspawn
    exact absurd hspawn (List.not_mem_nil _)
  · have hshort := javaArgs_some h _ args hargs
    have hexplicit := javaArgs_eq_some h (h.getJarPath "NewLaunch.jar") hshort
    rw [hargs] at hexplicit
    rw [hone, List.mem_singleton] at hspawn
    refine ⟨⟨(if trimmed h.getWrapperCommand = "" then []
          else h.splitArgs (trimmed h.getWrapperCommand))
        ++ (if (wantSandbox h && canSandbox h) = true
            then bwrapArgs h (h.getJarPath "NewLaunch.jar") else [])
        ++ [h.ResolveExecutable (h.settingsString "JavaPath")] ++ h.javaArguments
        ++ ["-Djava.library.path=" ++
              (if h.platform = .Windows ∧ fitsInLocal8bit h h.getNativePath = false
                then (h.GetShortPathNameW h.getNativePath).getD h.getNativePath
                else h.getNativePath)], ?_⟩, ?_⟩
    · rw [hspawn, Option.some.inj hexplicit]
      simp [shortPathName_eq]
    · intro hp item hitem hfit
      cases hname : h.GetShortPathNameW item with
      | none =>
        exact absurd hname (hshort hp item (by simp at hitem; simp [hitem]) hfit)
      | some short => exact ⟨short, by rw [shortPathName_eq, hname], rfl⟩

/-- C5 fails as stated: in a Windows build, a class path entry that does not
fit in the local 8 bit encoding is replaced by its short path name, so the
argument after `-cp` is not the join of the support jar and the entries. -/
theorem windows_class_path_entry_shortened :
    spawned windowsLibraryHost freshStep
        = [["C:/Java/bin/javaw.exe", "-Xms512m", "-Xmx4096m",
              "-Djava.library.path=C:/mc/instances/demo/natives", "-cp",
              "C:/PrismLauncher/jars/NewLaunch.jar;C:/30B2~1/libraries/a.jar;C:/mc/libraries/b.jar",
              "org.prismlauncher.EntryPoint"]] ∧
      "C:/PrismLauncher/jars/NewLaunch.jar;C:/30B2~1/libraries/a.jar;C:/mc/libraries/b.jar"
        ≠ join ";" ([windowsLibraryHost.getJarPath "NewLaunch.jar"] ++
            windowsLibraryHost.getClassPath) := by
  decide

/-- The hypothesis of `spawned_class_path_argument` holds for the invocation
spawned on a Linux desktop with a wrapper command. -/
theorem spawned_class_path_argument_witness :
    ["gamemoderun", "--quiet", "/usr/bin/java", "-Xms512m", "-Xmx4096m",
        "-Djava.library.path=/data/instances/demo/natives", "-cp",
        "/usr/share/PrismLauncher/NewLaunch.jar:/data/libraries/a.jar:/data/libraries/b.jar",
        "org.prismlauncher.EntryPoint"] ∈ spawned wrapperHost freshStep ∧
    ((∃ front, ["gamemoderun", "--quiet", "/usr/bin/java", "-Xms512m", "-Xmx4096m",
        "-Djava.library.path=/data/instances/demo/natives", "-cp",
        "/usr/share/PrismLauncher/NewLaunch.jar:/data/libraries/a.jar:/data/libraries/b.jar",
        "org.prismlauncher.EntryPoint"] = front ++
      ["-cp",
        join (if wrapperHost.platform = .Windows then ";" else ":")
          (([wrapperHost.getJarPath "NewLaunch.jar"] ++ wrapperHost.getClassPath).map
            (fun item =>
              if wrapperHost.platform = .Windows ∧ fitsInLocal8bit wrapperHost item = false
                then (shortPathName wrapperHost item).getD item else item)),
        "org.prismlauncher.EntryPoint"])
      ∧ (wrapperHost.platform = .Windows →
          ∀ item ∈ [wrapperHost.getJarPath "NewLaunch.jar"] ++ wrapperHost.getClassPath,
            fitsInLocal8bit wrapperHost item = false →
              ∃ short, shortPathName wrapperHost item = some short
                ∧ wrapperHost.GetShortPathNameW item = some short)) :=
  ⟨by decide, spawned_class_path_argument wrapperHost freshStep _ (by decide)⟩

/-- C6.  With sandboxing requested and available, the list `args` after the
sandbox section is the sandbox tool, the sandbox arguments, `--` and then the
whole Java invocation as it was assembled before, interpreter first; the `--`
the builder appends sits right before the interpreter.  Without a wrapper
command this list is what `m_process.start` receives. -/
theorem sandbox_step_wraps_invocation (h : Host) (self : LauncherPartLaunch)
    (hwant : wantSandbox h = true) (hcan : canSandbox h = true) :
    ∃ sandboxArgs invocation,
      bwrapArgs h (h.getJarPath "NewLaunch.jar") = [h.getBwrapBinary] ++ sandboxArgs ++ ["--"] ∧
      javaInvocation h (h.getJarPath "NewLaunch.jar") = some invocation ∧
      sandboxedInvocation h (h.getJarPath "NewLaunch.jar")
        = some ([h.getBwrapBinary] ++ sandboxArgs ++ ["--"] ++ invocation) ∧
      (∃ args, javaArgs h (h.getJarPath "NewLaunch.jar") = some args ∧
        invocation = h.ResolveExecutable (h.settingsString "JavaPath") :: args) ∧
      invocation
        = [h.ResolveExecutable (h.settingsString "JavaPath")] ++ h.javaArguments ++
            ["-Djava.library.path=" ++ h.getNativePath, "-cp",
              join ":" ([h.getJarPath "NewLaunch.jar"] ++ h.getClassPath),
              "org.prismlauncher.EntryPoint"] ∧
      ([h.getBwrapBinary] ++ sandboxArgs ++ ["--"] ++ invocation)[sandboxArgs.length + 1]?
        = some "--" ∧
      ([h.getBwrapBinary] ++ sandboxArgs ++ ["--"] ++ invocation)[sandboxArgs.length + 2]?
        = some (h.ResolveExecutable (h.settingsString "JavaPath")) ∧
      (h.getJarPath "NewLaunch.jar" ≠ "" → trimmed h.getWrapperCommand = "" →
        spawned h self = [[h.getBwrapBinary] ++ sandboxArgs ++ ["--"] ++ invocation]) := by
  obtain ⟨sandboxArgs, hshape⟩ := bwrapArgs_shape h (h.getJarPath "NewLaunch.jar")
  have hlinux : h.platform = .Linux := ((canSandbox_eq_true h).mp hcan).1
  have hargs := javaArgs_eq_some h (h.getJarPath "NewLaunch.jar")
    (fun hw => by rw [hlinux] at hw; cases hw)
  simp only [hlinux, false_and, if_false, reduceCtorEq] at hargs
  have hboth : (wantSandbox h && canSandbox h) = true := by simp [hwant, hcan]
  obtain ⟨hjava, hsandboxed⟩ := sandboxedInvocation_eq h (h.getJarPath "NewLaunch.jar") _ hargs
  rw [if_pos hboth, hshape] at hsandboxed
  refine ⟨sandboxArgs, _, hshape, hjava, hsandboxed, ⟨_, hargs, rfl⟩, ?_, ?_, ?_, ?_⟩
  · simp
  · rw [show ∀ tail : List String, [h.getBwrapBinary] ++ sandboxArgs ++ ["--"] ++ tail
        = ([h.getBwrapBinary] ++ sandboxArgs) ++ ("--" :: tail) from fun tail => by simp,
      List.getElem?_append_right (by simp [Nat.add_comm])]
    simp [Nat.add_comm]
  · rw [List.getElem?_append_right (by simp)]
    simp
  · intro hjar hwrap
    have hsb : ¬ (wantSandbox h && !canSandbox h) = true := by simp [hwant, hcan]
    obtain ⟨effects, hrun, hstarted, -⟩ :=
      executeTask_plain_returned h self _ hjar hargs hsb hwrap
    unfold spawned
    rw [hrun]
    dsimp only
    rw [hstarted, if_pos hboth, hshape]

set_option maxRecDepth 100000 in
/-- The hypotheses of `sandbox_step_wraps_invocation` hold on a Linux desktop
with sandboxing requested, where the invocation spawned starts with the
sandbox tool and ends with `--` and the Java invocation. -/
theorem sandbox_step_wraps_invocation_witness :
    (wantSandbox sandboxHost = true ∧ canSandbox sandboxHost = true) ∧
    (spawned sandboxHost freshStep).map
        (fun invocation => (invocation.take 2, invocation.drop (invocation.length - 8)))
      = [(["/usr/bin/bwrap", "--unshare-all"],
          ["--", "/usr/bin/java", "-Xms512m", "-Xmx4096m",
            "-Djava.library.path=/data/instances/demo/natives", "-cp",
            "/usr/share/PrismLauncher/NewLaunch.jar:/data/libraries/a.jar:/data/libraries/b.jar",
            "org.prismlauncher.EntryPoint"])] ∧
    ∃ sandboxArgs invocation,
      bwrapArgs sandboxHost (sandboxHost.getJarPath "NewLaunch.jar")
        = [sandboxHost.getBwrapBinary] ++ sandboxArgs ++ ["--"] ∧
      javaInvocation sandboxHost (sandboxHost.getJarPath "NewLaunch.jar") = some invocation ∧
      sandboxedInvocation sandboxHost (sandboxHost.getJarPath "NewLaunch.jar")
        = some ([sandboxHost.getBwrapBinary] ++ sandboxArgs ++ ["--"] ++ invocation) ∧
      (∃ args, javaArgs sandboxHost (sandboxHost.getJarPath "NewLaunch.jar") = some args ∧
        invocation
          = sandboxHost.ResolveExecutable (sandboxHost.settingsString "JavaPath") :: args) ∧
      invocation
        = [sandboxHost.ResolveExecutable (sandboxHost.settingsString "JavaPath")] ++
            sandboxHost.javaArguments ++
            ["-Djava.library.path=" ++ sandboxHost.getNativePath, "-cp",
              join ":" ([sandboxHost.getJarPath "NewLaunch.jar"] ++ sandboxHost.getClassPath),
              "org.prismlauncher.EntryPoint"] ∧
      ([sandboxHost.getBwrapBinary] ++ sandboxArgs ++ ["--"] ++ invocation)[
          sandboxArgs.length + 1]? = some "--" ∧
      ([sandboxHost.getBwrapBinary] ++ sandboxArgs ++ ["--"] ++ invocation)[
          sandboxArgs.length + 2]?
        = some (sandboxHost.ResolveExecutable (sandboxHost.settingsString "JavaPath")) ∧
      (sandboxHost.getJarPath "NewLaunch.jar" ≠ "" →
        trimmed sandboxHost.getWrapperCommand = "" →
        spawned sandboxHost freshStep
          = [[sandboxHost.getBwrapBinary] ++ sandboxArgs ++ ["--"] ++ invocation]) :=
  ⟨by decide, by decide,
    sandbox_step_wraps_invocation sandboxHost freshStep (by decide) (by decide)⟩

set_option maxRecDepth 100000 in
/-- C7.  With a wrapper command whose first word is on the search path, every
invocation `executeTask` spawns is the first word, the remaining words, the
sandbox part and then the Java invocation: the resolved interpreter, the JVM
arguments, the library-path option, `-cp`, the joined class path and the entry
point class.  The sandbox part is the whole sandbox argument list, sandbox tool
first and `--` last, when sandboxing is requested in a Linux build that found
the tool, and is empty otherwise, so the element behind the wrapper words is
the sandbox tool or the interpreter.  Such an invocation is spawned, once, when
the support jar is found, the sandbox check passes and, in a Windows build,
every path that does not fit in the local 8 bit encoding has a short path
name.  On the Linux desktop with sandboxing requested and the wrapper command
`gamemoderun --quiet` the invocation starts with the two wrapper words and the
sandbox tool, and ends with `--` and the Java invocation. -/
theorem wrapper_outermost (h : Host) (self : LauncherPartLaunch) (w : String) (ws : List String)
    (hne : trimmed h.getWrapperCommand ≠ "")
    (hsplit : h.splitArgs (trimmed h.getWrapperCommand) = w :: ws)
    (hfind : h.findExecutable w ≠ "") :
    (∀ invocation ∈ spawned h self,
        ∃ sandboxPart,
          invocation
              = [w] ++ ws ++ sandboxPart
                ++ [h.ResolveExecutable (h.settingsString "JavaPath")] ++ h.javaArguments
                ++ ["-Djava.library.path=" ++
                      (if h.platform = .Windows ∧ fitsInLocal8bit h h.getNativePath = false
                        then (h.GetShortPathNameW h.getNativePath).getD h.getNativePath
                        else h.getNativePath),
                    "-cp",
                    join (if h.platform = .Windows then ";" else ":")
                      (([h.getJarPath "NewLaunch.jar"] ++ h.getClassPath).map (fun item =>
                        if h.platform = .Windows ∧ fitsInLocal8bit h item = false
                          then (h.GetShortPathNameW item).getD item else item)),
                    "org.prismlauncher.EntryPoint"]
            ∧ ((h.settingsBool "EnableSandboxing" = true ∧ h.platform = .Linux
                  ∧ h.getBwrapBinary ≠ "") →
                sandboxPart = bwrapArgs h (h.getJarPath "NewLaunch.jar")
                  ∧ ∃ sandboxArgs, sandboxPart = [h.getBwrapBinary] ++ sandboxArgs ++ ["--"])
            ∧ (¬ (h.settingsBool "EnableSandboxing" = true ∧ h.platform = .Linux
                  ∧ h.getBwrapBinary ≠ "") →
                sandboxPart = []))
      ∧ (h.getJarPath "NewLaunch.jar" ≠ "" →
          ¬ (h.settingsBool "EnableSandboxing" = true
              ∧ (h.platform ≠ .Linux ∨ h.getBwrapBinary = "")) →
          (h.platform = .Windows →
            ∀ path ∈ h.getNativePath :: h.getJarPath "NewLaunch.jar" :: h.getClassPath,
              fitsInLocal8bit h path = false → h.GetShortPathNameW path ≠ none) →
          ∃ invocation self' effects,
            executeTask h self = .returned self' effects
              ∧ started effects = [invocation] ∧ spawned h self = [invocation])
      ∧ (spawned sandboxWrapperHost freshStep).map
            (fun invocation => (invocation.take 4, invocation.drop (invocation.length - 8)))
          = [(["gamemoderun", "--quiet", "/usr/bin/bwrap", "--unshare-all"],
              ["--", "/usr/bin/java", "-Xms512m", "-Xmx4096m",
                "-Djava.library.path=/data/instances/demo/natives", "-cp",
                "/usr/share/PrismLauncher/NewLaunch.jar:/data/libraries/a.jar:/data/libraries/b.jar",
                "org.prismlauncher.EntryPoint"])] := by
  refine ⟨?_, ?_, by decide⟩
  · intro invocation hmem
    rcases spawned_eq h self with hnone | ⟨args, hargs, -, -, hone⟩
    · rw [hnone] at hmem
      exact absurd hmem (List.not_mem_nil _)
    · have hshort := javaArgs_some h _ args hargs
      have hexplicit := javaArgs_eq_some h (h.getJarPath "NewLaunch.jar") hshort
      rw [hargs] at hexplicit
      rw [hone, List.mem_singleton, if_neg hne, hsplit, Option.some.inj hexplicit] at hmem
      refine ⟨if (wantSandbox h && canSandbox h) = true
        then bwrapArgs h (h.getJarPath "NewLaunch.jar") else [], ?_, ?_, ?_⟩
      · rw [hmem]
        simp
      · intro hactive
        rw [if_pos ((sandbox_active_iff h).mpr hactive)]
        obtain ⟨sandboxArgs, hshape⟩ := bwrapArgs_shape h (h.getJarPath "NewLaunch.jar")
        exact ⟨rfl, sandboxArgs, hshape⟩
      · intro hnot
        rw [if_neg (fun hactive => hnot ((sandbox_active_iff h).mp hactive))]
  · intro hjar hcheck hshort
    have hargs := javaArgs_eq_some h (h.getJarPath "NewLaunch.jar") hshort
    have hsb : ¬ (wantSandbox h && !canSandbox h) = true :=
      fun hbad => hcheck ((sandbox_unavailable_iff h).mp hbad)
    obtain ⟨effects, hrun, hstarted, -⟩ :=
      executeTask_wrapped_returned h self _ w ws hjar hargs hsb hne hsplit hfind
    refine ⟨_, _, effects, hrun, hstarted, ?_⟩
    unfold spawned
    rw [hrun]
    exact hstarted

/-- The hypotheses of `wrapper_outermost` hold for the wrapper command
`gamemoderun --quiet`, and the invocation spawned there is the two words in
front of the Java invocation. -/
theorem wrapper_outermost_witness :
    (trimmed wrapperHost.getWrapperCommand ≠ "" ∧
      wrapperHost.splitArgs (trimmed wrapperHost.getWrapperCommand)
        = "gamemoderun" :: ["--quiet"] ∧
      wrapperHost.findExecutable "gamemoderun" ≠ "") ∧
    spawned wrapperHost freshStep
      = [["gamemoderun", "--quiet", "/usr/bin/java", "-Xms512m", "-Xmx4096m",
          "-Djava.library.path=/data/instances/demo/natives", "-cp",
          "/usr/share/PrismLauncher/NewLaunch.jar:/data/libraries/a.jar:/data/libraries/b.jar",
          "org.prismlauncher.EntryPoint"]] ∧
    ∃ sandboxPart,
      ["gamemoderun", "--quiet", "/usr/bin/java", "-Xms512m", "-Xmx4096m",
          "-Djava.library.path=/data/instances/demo/natives", "-cp",
          "/usr/share/PrismLauncher/NewLaunch.jar:/data/libraries/a.jar:/data/libraries/b.jar",
          "org.prismlauncher.EntryPoint"]
          = ["gamemoderun"] ++ ["--quiet"] ++ sandboxPart
            ++ [wrapperHost.ResolveExecutable (wrapperHost.settingsString "JavaPath")]
            ++ wrapperHost.javaArguments
            ++ ["-Djava.library.path=" ++
                  (if wrapperHost.platform = .Windows
                      ∧ fitsInLocal8bit wrapperHost wrapperHost.getNativePath = false
                    then (wrapperHost.GetShortPathNameW wrapperHost.getNativePath).getD
                      wrapperHost.getNativePath
                    else wrapperHost.getNativePath),
                "-cp",
                join (if wrapperHost.platform = .Windows then ";" else ":")
                  (([wrapperHost.getJarPath "NewLaunch.jar"] ++ wrapperHost.getClassPath).map
                    (fun item =>
                      if wrapperHost.platform = .Windows
                          ∧ fitsInLocal8bit wrapperHost item = false
                        then (wrapperHost.GetShortPathNameW item).getD item else item)),
                "org.prismlauncher.EntryPoint"]
        ∧ ((wrapperHost.settingsBool "EnableSandboxing" = true ∧ wrapperHost.platform = .Linux
              ∧ wrapperHost.getBwrapBinary ≠ "") →
            sandboxPart = bwrapArgs wrapperHost (wrapperHost.getJarPath "NewLaunch.jar")
              ∧ ∃ sandboxArgs,
                sandboxPart = [wrapperHost.getBwrapBinary] ++ sandboxArgs ++ ["--"])
        ∧ (¬ (wrapperHost.settingsBool "EnableSandboxing" = true
              ∧ wrapperHost.platform = .Linux ∧ wrapperHost.getBwrapBinary ≠ "") →
            sandboxPart = []) :=
  ⟨by decide, by decide,
    (wrapper_outermost wrapperHost freshStep "gamemoderun" ["--quiet"]
      (by decide) (by decide) (by decide)).1 _ (by decide)⟩

/-- C8.  The function `on_state` emits `emitSucceeded` exactly for `Finished`
with exit code 0, and then reports no failure; for `Finished` with a nonzero
exit code, for `Aborted` and for `Crashed` it reports one failure, always with
the message `tr("Game crashed.")`, and no success. -/
theorem on_state_success_iff_finished_zero (h : Host) (m_process : LoggedProcess) (self : LauncherPartLaunch) (state : State) :
    (0 < successes (on_state h m_process self state).2 ↔
        state = .Finished ∧ m_process.exitCode = 0)
    ∧ (state = .Finished ∧ m_process.exitCode = 0 →
        successes (on_state h m_process self state).2 = 1
          ∧ failures (on_state h m_process self state).2 = [])
    ∧ ((state = .Aborted ∨ state = .Crashed ∨ (state = .Finished ∧ m_process.exitCode ≠ 0)) →
        failures (on_state h m_process self state).2 = [h.tr "Game crashed."]
          ∧ successes (on_state h m_process self state).2 = 0) := by
  cases state <;> simp [on_state, successes, failures]
  by_cases hexit : m_process.exitCode = 0 <;>
    by_cases hclose : h.settingsBool "CloseAfterLaunch" = true <;>
      simp [hexit, hclose, successes, failures]

/-- With the gate closed, no sequence of control calls writes to the child. -/
theorem calls_closed_gate (self : LauncherPartLaunch) (hgate : self.mayProceed = false)
    (cs : List Call) : written (calls self cs).2 = [] := by
  induction cs generalizing self with
  | nil => rfl
  | cons c cs ih =>
    cases c with
    | proceed =>
      simp only [calls, call, proceed, hgate, written_append]
      simpa [written] using ih self hgate
    | abort m_process =>
      have hsame : (abort m_process self).1 = self := by
        unfold abort
        rw [if_neg (by simp [hgate])]
        dsimp only
        split <;> rfl
      have hquiet : written (abort m_process self).2.1 = [] := by
        unfold abort
        rw [if_neg (by simp [hgate])]
        dsimp only
        split <;> rfl
      simp only [calls, call, written_append, hsame, hquiet, List.nil_append]
      exact ih self hgate

/-- C9.  After `on_state(Running)`, a non-empty sequence of `proceed` and
`abort` calls writes exactly one text to the child: the control line of the
first call, `launch` or `abort` with a newline.  After any `proceed`, later
calls write nothing. -/
theorem control_line_written_once (h : Host) (m_process : LoggedProcess) (self : LauncherPartLaunch)
    (c : Call) (cs : List Call) :
    written (calls (on_state h m_process self .Running).1 (c :: cs)).2 = [controlLine c]
      ∧ (controlLine c = "launch\n" ∨ controlLine c = "abort\n")
      ∧ (∀ (s : LauncherPartLaunch) (later : List Call),
          written (calls (proceed s).1 later).2 = []) := by
  refine ⟨?_, ?_, ?_⟩
  · cases c with
    | proceed =>
      simp only [calls, call, on_state, proceed, written_append, if_true]
      rw [calls_closed_gate _ rfl]
      rfl
    | abort p =>
      simp only [calls, call, on_state, abort, written_append, if_true]
      rw [calls_closed_gate _ rfl]
      rfl
  · cases c <;> simp [controlLine]
  · intro s later
    apply calls_closed_gate
    unfold proceed
    split
    · rfl
    · simpa using ‹¬ s.mayProceed = true›

/-- C10.  The function `abort` always returns `true`.  With the gate open it
writes the `abort` line, does not kill and clears the gate; with the gate
closed it writes nothing, leaves the object as it is, and kills the process
exactly when its state is `Running` or `Starting`. -/
theorem abort_writes_or_kills (m_process : LoggedProcess) (self : LauncherPartLaunch) :
    (abort m_process self).2.2 = true
      ∧ (self.mayProceed = true →
          (abort m_process self).2.1 = [.write "abort\n"]
            ∧ kills (abort m_process self).2.1 = 0
            ∧ (abort m_process self).1 = { self with mayProceed := false })
      ∧ (self.mayProceed = false →
          written (abort m_process self).2.1 = []
            ∧ (abort m_process self).2.1
                = (if m_process.state = .Running ∨ m_process.state = .Starting
                    then [.kill] else [])
            ∧ (abort m_process self).1 = self) := by
  refine ⟨?_, ?_, ?_⟩
  · unfold abort
    split
    · rfl
    · dsimp only
      split <;> rfl
  · intro hgate
    simp [abort, hgate, kills]
  · intro hgate
    by_cases hstate : m_process.state = .Running ∨ m_process.state = .Starting
    · rcases hstate with hs | hs <;> simp [abort, hgate, hs, written]
    · have h1 : ¬ m_process.state = .Running := fun hs => hstate (Or.inl hs)
      have h2 : ¬ m_process.state = .Starting := fun hs => hstate (Or.inr hs)
      simp [abort, hgate, h1, h2, written]

/-- The loop of a quantifier succeeds exactly when a run of matching
characters is followed by a match of the rest. -/
theorem starLoop_iff (ok : Char → Bool) (rest : List Char → Bool) (s : List Char) :
    starLoop ok rest s = true ↔
      ∃ run tail, s = run ++ tail ∧ (∀ c ∈ run, ok c = true) ∧ rest tail = true := by
  induction s with
  | nil =>
    constructor
    · intro hrest
      exact ⟨[], [], rfl, by simp, hrest⟩
    · rintro ⟨run, tail, hsplit, -, hrest⟩
      have htail : tail = [] := (List.append_eq_nil.mp hsplit.symm).2
      simpa [starLoop, htail] using hrest
  | cons c cs ih =>
    simp only [starLoop, Bool.or_eq_true, Bool.and_eq_true, ih]
    constructor
    · rintro (hrest | ⟨hc, run, tail, hsplit, hrun, hrest⟩)
      · exact ⟨[], c :: cs, rfl, by simp, hrest⟩
      · exact ⟨c :: run, tail, by simp [hsplit], by simpa [hc] using hrun, hrest⟩
    · rintro ⟨run, tail, hsplit, hrun, hrest⟩
      cases run with
      | nil =>
        left
        have htail : tail = c :: cs := by simpa using hsplit.symm
        rw [← htail]
        exact hrest
      | cons d run =>
        simp only [List.cons_append, List.cons.injEq] at hsplit
        obtain ⟨rfl, rfl⟩ := hsplit
        right
        exact ⟨hrun c (by simp), run, tail, rfl, fun x hx => hrun x (by simp [hx]), hrest⟩

/-- One pattern character against an empty subject. -/
theorem matchHere_one_nil (ci : Bool) (a : Atom) (items : List Item) :
    matchHere ci (.one a :: items) [] = false := rfl

/-- One pattern character against the first character of the subject. -/
theorem matchHere_one_cons (ci : Bool) (a : Atom) (items : List Item) (c : Char)
    (cs : List Char) :
    matchHere ci (.one a :: items) (c :: cs)
      = (atomMatches ci a c && matchHere ci items cs) := rfl

/-- A starred pattern character runs the loop of the quantifier. -/
theorem matchHere_star (ci : Bool) (a : Atom) (items : List Item) (s : List Char) :
    matchHere ci (.star a :: items) s
      = starLoop (atomMatches ci a) (matchHere ci items) s := rfl

/-- A pattern character under `+` against an empty subject. -/
theorem matchHere_plus_nil (ci : Bool) (a : Atom) (items : List Item) :
    matchHere ci (.plus a :: items) [] = false := rfl

/-- A pattern character under `+` takes one character and then runs the loop. -/
theorem matchHere_plus_cons (ci : Bool) (a : Atom) (items : List Item) (c : Char)
    (cs : List Char) :
    matchHere ci (.plus a :: items) (c :: cs)
      = (atomMatches ci a c && starLoop (atomMatches ci a) (matchHere ci items) cs) := rfl

/-- A run of literals matches, caselessly, exactly the words with the same
case folding. -/
theorem matchHere_literals (word : List Char) (items : List Item) (s : List Char) :
    matchHere true (word.map (fun c => Item.one (.lit c)) ++ items) s = true ↔
      ∃ found tail, s = found ++ tail ∧ found.map foldCase = word.map foldCase ∧
        matchHere true items tail = true := by
  induction word generalizing s with
  | nil =>
    constructor
    · intro hrest
      exact ⟨[], s, rfl, rfl, by simpa using hrest⟩
    · rintro ⟨found, tail, hsplit, hfound, hrest⟩
      have hnil : found = [] := by simpa using hfound
      subst hnil
      simpa [hsplit] using hrest
  | cons p word ih =>
    cases s with
    | nil =>
      constructor
      · intro hmatch
        rw [List.map_cons, List.cons_append, matchHere_one_nil] at hmatch
        exact absurd hmatch (by simp)
      · rintro ⟨found, tail, hsplit, hfound, -⟩
        have hnil : found = [] := (List.append_eq_nil.mp hsplit.symm).1
        subst hnil
        simp at hfound
    | cons c cs =>
      rw [List.map_cons, List.cons_append, matchHere_one_cons]
      simp only [atomMatches, if_true, Bool.and_eq_true, decide_eq_true_eq, ih]
      constructor
      · rintro ⟨hc, found, tail, hsplit, hfound, hrest⟩
        exact ⟨c :: found, tail, by simp [hsplit], by simp [hfound, hc], hrest⟩
      · rintro ⟨found, tail, hsplit, hfound, hrest⟩
        cases found with
        | nil => simp at hfound
        | cons d found =>
          simp only [List.cons_append, List.cons.injEq] at hsplit
          obtain ⟨rfl, rfl⟩ := hsplit
          simp only [List.map_cons, List.cons.injEq] at hfound
          exact ⟨hfound.1.symm, found, tail, rfl, hfound.2, hrest⟩

/-- A pattern matches somewhere in a subject exactly when it matches at the
start of one of its tails. -/
theorem containsMatch_iff (items : List Item) (s : List Char) :
    containsMatch true items s = true ↔
      ∃ front tail, s = front ++ tail ∧ matchHere true items tail = true := by
  induction s with
  | nil =>
    constructor
    · intro hmatch
      exact ⟨[], [], rfl, hmatch⟩
    · rintro ⟨front, tail, hsplit, hmatch⟩
      have htail : tail = [] := (List.append_eq_nil.mp hsplit.symm).2
      simpa [containsMatch, htail] using hmatch
  | cons c cs ih =>
    simp only [containsMatch, Bool.or_eq_true, ih]
    constructor
    · rintro (hmatch | ⟨front, tail, hsplit, hmatch⟩)
      · exact ⟨[], c :: cs, rfl, hmatch⟩
      · exact ⟨c :: front, tail, by simp [hsplit], hmatch⟩
    · rintro ⟨front, tail, hsplit, hmatch⟩
      cases front with
      | nil =>
        left
        have htail : tail = c :: cs := by simpa using hsplit.symm
        rw [← htail]
        exact hmatch
      | cons d front =>
        simp only [List.cons_append, List.cons.injEq] at hsplit
        right
        exact ⟨front, tail, hsplit.2, hmatch⟩

/-- The expression of line 63 matches somewhere in a line exactly when the
line holds, caselessly, the phrase with one more character of the same line
behind it. -/
theorem settingUser_iff (s : List Char) :
    containsMatch true settingUserPattern s = true ↔
      ∃ front found c tail, s = front ++ found ++ c :: tail ∧
        found.map foldCase = "Setting user".data.map foldCase ∧ c ≠ '\n' := by
  have hplus : ∀ t : List Char, matchHere true [.plus .dot] t = true ↔
      ∃ c tail, t = c :: tail ∧ c ≠ '\n' := by
    intro t
    cases t with
    | nil => simp [matchHere_plus_nil]
    | cons c cs =>
      have hloop : starLoop (atomMatches true .dot) (matchHere true []) cs = true :=
        (starLoop_iff _ _ cs).mpr ⟨[], cs, rfl, by simp, rfl⟩
      rw [matchHere_plus_cons, hloop]
      simp [atomMatches]
  rw [containsMatch_iff]
  unfold settingUserPattern
  generalize "Setting user".data = word
  rw [List.append_assoc, List.singleton_append]
  constructor
  · rintro ⟨front, tail, hsplit, hmatch⟩
    rw [matchHere_star] at hmatch
    obtain ⟨run, tail2, hsplit2, -, hrest⟩ := (starLoop_iff _ _ tail).mp hmatch
    obtain ⟨found, tail3, hsplit3, hfound, hlast⟩ := (matchHere_literals _ _ tail2).mp hrest
    obtain ⟨c, tail4, hsplit4, hc⟩ := (hplus tail3).mp hlast
    exact ⟨front ++ run, found, c, tail4, by simp [hsplit, hsplit2, hsplit3, hsplit4], hfound, hc⟩
  · rintro ⟨front, found, c, tail, hsplit, hfound, hc⟩
    refine ⟨front, found ++ c :: tail, by simp [hsplit], ?_⟩
    rw [matchHere_star]
    refine (starLoop_iff _ _ _).mpr ⟨[], found ++ c :: tail, rfl, by simp, ?_⟩
    exact (matchHere_literals _ _ _).mpr ⟨found, c :: tail, rfl, hfound,
      (hplus _).mpr ⟨c, tail, rfl, hc⟩⟩

/-- The closings of two runs of effects, one after the other. -/
theorem closings_append (a b : List Effect) : closings (a ++ b) = closings a + closings b := by
  induction a with
  | nil => simp [closings]
  | cons e es ih =>
    cases e with
    | closeAllWindows =>
      show closings (es ++ b) + 1 = closings es + 1 + closings b
      rw [ih]
      omega
    | _ => simp [closings, ih]

/-- A batch that arrives on a connected lambda closes the windows once when
the filter keeps a line, and not at all when it keeps none. -/
theorem on_log_connected (lines : List String) (level : MessageLevel) :
    (filterSettingUser lines = [] →
        (on_log { connected := true } lines level).1 = { connected := true } ∧
          closings (on_log { connected := true } lines level).2 = 0)
      ∧ (filterSettingUser lines ≠ [] →
        (on_log { connected := true } lines level).1 = { connected := false } ∧
          closings (on_log { connected := true } lines level).2 = 1) := by
  constructor
  · intro hnone
    simp [on_log, logLambda, hnone, closings]
  · intro hsome
    have hlen : (filterSettingUser lines).length ≠ 0 := by
      simpa [List.length_eq_zero] using hsome
    simp [on_log, logLambda, hlen, closings]

/-- Without the connection no batch closes the windows. -/
theorem on_logs_disconnected (batches : List (List String × MessageLevel)) :
    closings (on_logs { connected := false } batches).2 = 0 := by
  induction batches with
  | nil => rfl
  | cons batch batches ih =>
    simp only [on_logs, on_log, closings_append]
    simpa [closings] using ih

/-- While no batch holds a marked line the lambda stays connected and the
windows stay open. -/
theorem on_logs_unmarked (batches : List (List String × MessageLevel))
    (hnone : ∀ batch ∈ batches, filterSettingUser batch.1 = []) :
    (on_logs { connected := true } batches).1 = { connected := true } ∧
      closings (on_logs { connected := true } batches).2 = 0 := by
  induction batches with
  | nil => exact ⟨rfl, rfl⟩
  | cons batch batches ih =>
    have hbatch := (on_log_connected batch.1 batch.2).1 (hnone batch (by simp))
    have hrest := ih (fun b hb => hnone b (by simp [hb]))
    simp [on_logs, closings_append, hbatch.1, hbatch.2, hrest.1, hrest.2]

/-- Log batches handled one sequence after the other. -/
theorem on_logs_append (connection : Connection)
    (first second : List (List String × MessageLevel)) :
    on_logs connection (first ++ second)
      = ((on_logs (on_logs connection first).1 second).1,
          (on_logs connection first).2 ++ (on_logs (on_logs connection first).1 second).2) := by
  induction first generalizing connection with
  | nil => simp [on_logs]
  | cons batch first ih => simp [on_logs, ih]

/-- C12.  A launch step constructed without `CloseAfterLaunch` never closes
the windows, whatever is logged.  One constructed with it closes them at the
first log batch in which the filter of line 63 keeps a line: no earlier batch
closes them, that batch closes them once, no later batch closes them again,
and a sequence without such a batch closes nothing. -/
theorem close_fires_once_at_first_marker (h : Host)
    (batches : List (List String × MessageLevel)) :
    (h.settingsBool "CloseAfterLaunch" = false →
        closings (on_logs (construct h) batches).2 = 0)
      ∧ (h.settingsBool "CloseAfterLaunch" = true →
        ((∀ batch ∈ batches, filterSettingUser batch.1 = []) →
            closings (on_logs (construct h) batches).2 = 0)
          ∧ ∀ before batch after, batches = before ++ batch :: after →
              (∀ earlier ∈ before, filterSettingUser earlier.1 = []) →
              filterSettingUser batch.1 ≠ [] →
              closings (on_logs (construct h) before).2 = 0
                ∧ closings (on_log (on_logs (construct h) before).1 batch.1 batch.2).2 = 1
                ∧ closings (on_logs
                    (on_log (on_logs (construct h) before).1 batch.1 batch.2).1 after).2 = 0
                ∧ closings (on_logs (construct h) batches).2 = 1) := by
  constructor
  · intro hoff
    simp only [construct, hoff]
    exact on_logs_disconnected batches
  · intro harmed
    simp only [construct, harmed, if_true]
    refine ⟨fun hnone => (on_logs_unmarked batches hnone).2, ?_⟩
    intro before batch after hsplit hbefore hbatch
    have h1 := on_logs_unmarked before hbefore
    have h2 := (on_log_connected batch.1 batch.2).2 hbatch
    have h3 := on_logs_disconnected after
    refine ⟨h1.2, by rw [h1.1]; exact h2.2, by rw [h1.1, h2.1]; exact h3, ?_⟩
    rw [hsplit, on_logs_append]
    simp only [on_logs, closings_append, h1.1, h1.2, h2.1, h2.2, h3]

/-- C12 at the sequence of the example: a batch without the marker, the line
`Setting user ABC123`, and the same line once more. -/
theorem close_fires_once_at_first_marker_witness :
    (closeAfterLaunchHost.settingsBool "CloseAfterLaunch" = true
      ∧ (∀ earlier ∈ [((["Loading"], MessageLevel.Launcher) : List String × MessageLevel)],
          filterSettingUser earlier.1 = [])
      ∧ filterSettingUser ["Setting user ABC123"] ≠ [])
    ∧ (closings (on_logs (construct closeAfterLaunchHost) [(["Loading"], .Launcher)]).2 = 0
      ∧ closings (on_log (on_logs (construct closeAfterLaunchHost)
          [(["Loading"], .Launcher)]).1 ["Setting user ABC123"] .Launcher).2 = 1
      ∧ closings (on_logs
          (on_log (on_logs (construct closeAfterLaunchHost) [(["Loading"], .Launcher)]).1
            ["Setting user ABC123"] .Launcher).1
          [(["Setting user ABC123"], .Launcher)]).2 = 0
      ∧ closings (on_logs (construct closeAfterLaunchHost)
          [(["Loading"], .Launcher), (["Setting user ABC123"], .Launcher),
            (["Setting user ABC123"], .Launcher)]).2 = 1) :=
  ⟨by decide,
    ((close_fires_once_at_first_marker closeAfterLaunchHost
      [(["Loading"], .Launcher), (["Setting user ABC123"], .Launcher),
        (["Setting user ABC123"], .Launcher)]).2 (by decide)).2
      [(["Loading"], .Launcher)] (["Setting user ABC123"], .Launcher)
      [(["Setting user ABC123"], .Launcher)] rfl (by decide) (by decide)⟩

/-- Two characters are the same when their code points are. -/
theorem char_eq_iff (x y : Char) : x = y ↔ x.toNat = y.toNat := by
  constructor
  · rintro rfl
    rfl
  · intro hcode
    rw [← Char.ofNat_toNat x, ← Char.ofNat_toNat y, hcode]

/-- The characters that fold to a small letter other than `s` and `k`: the
letter and its capital. -/
theorem foldCase_letter (x upper lower : Char)
    (hupper : 65 ≤ upper.toNat ∧ upper.toNat ≤ 90) (hlower : lower.toNat = upper.toNat + 32)
    (hs : lower.toNat ≠ 115) (hk : lower.toNat ≠ 107) :
    foldCase x = lower.toNat ↔ x ∈ [upper, lower] := by
  simp only [List.mem_cons, List.mem_singleton, List.not_mem_nil, or_false, char_eq_iff x]
  unfold foldCase
  split_ifs <;> omega

/-- The characters that fold to `s`: the letter, its capital and the long s. -/
theorem foldCase_s (x : Char) : foldCase x = 115 ↔ x ∈ ['S', 's', Char.ofNat 0x17F] := by
  simp only [List.mem_cons, List.mem_singleton, List.not_mem_nil, or_false, char_eq_iff x]
  have hcapital : ('S').toNat = 83 := rfl
  have hsmall : ('s').toNat = 115 := rfl
  have hlong : (Char.ofNat 0x17F).toNat = 0x17F := rfl
  rw [hcapital, hsmall, hlong]
  unfold foldCase
  split_ifs <;> omega

/-- The space is the only character that folds to the space. -/
theorem foldCase_space (x : Char) : foldCase x = 32 ↔ x ∈ [' '] := by
  simp only [List.mem_cons, List.mem_singleton, List.not_mem_nil, or_false, char_eq_iff x]
  have hspace : (' ').toNat = 32 := rfl
  rw [hspace]
  unfold foldCase
  split_ifs <;> omega

/-- A run of characters folds to given codes exactly when each character is
one of the characters that fold to the code at its place. -/
theorem map_foldCase_iff (codes : List Nat) (alternatives : List (List Char))
    (hpoint : List.Forall₂ (fun code alt => ∀ x, foldCase x = code ↔ x ∈ alt) codes
      alternatives)
    (found : List Char) :
    found.map foldCase = codes ↔ List.Forall₂ (fun alt x => x ∈ alt) alternatives found := by
  induction hpoint generalizing found with
  | nil => cases found <;> simp
  | cons hhead _ ih =>
    cases found with
    | nil => simp
    | cons c cs => simp [hhead c, ih cs]

/-- The runs of characters that fold to the phrase `Setting user`: at each
place the letter of the phrase in either case, with the long s for an `s`. -/
theorem phrase_iff (found : List Char) :
    found.map foldCase = "Setting user".data.map foldCase ↔
      List.Forall₂ (fun (alternatives : List Char) (x : Char) => x ∈ alternatives)
        [['S', 's', Char.ofNat 0x17F], ['E', 'e'], ['T', 't'], ['T', 't'], ['I', 'i'],
          ['N', 'n'], ['G', 'g'], [' '], ['U', 'u'], ['S', 's', Char.ofNat 0x17F],
          ['E', 'e'], ['R', 'r']] found := by
  have hcodes : "Setting user".data.map foldCase
      = [115, 101, 116, 116, 105, 110, 103, 32, 117, 115, 101, 114] := by decide
  have hletter : ∀ upper lower : Char, (65 ≤ upper.toNat ∧ upper.toNat ≤ 90) →
      lower.toNat = upper.toNat + 32 → lower.toNat ≠ 115 → lower.toNat ≠ 107 →
      ∀ x, foldCase x = lower.toNat ↔ x ∈ [upper, lower] :=
    fun upper lower hupper hlower hs hk x => foldCase_letter x upper lower hupper hlower hs hk
  rw [hcodes]
  apply map_foldCase_iff
  exact .cons foldCase_s
    (.cons (hletter 'E' 'e' (by decide) (by decide) (by decide) (by decide))
    (.cons (hletter 'T' 't' (by decide) (by decide) (by decide) (by decide))
    (.cons (hletter 'T' 't' (by decide) (by decide) (by decide) (by decide))
    (.cons (hletter 'I' 'i' (by decide) (by decide) (by decide) (by decide))
    (.cons (hletter 'N' 'n' (by decide) (by decide) (by decide) (by decide))
    (.cons (hletter 'G' 'g' (by decide) (by decide) (by decide) (by decide))
    (.cons foldCase_space
    (.cons (hletter 'U' 'u' (by decide) (by decide) (by decide) (by decide))
    (.cons foldCase_s
    (.cons (hletter 'E' 'e' (by decide) (by decide) (by decide) (by decide))
    (.cons (hletter 'R' 'r' (by decide) (by decide) (by decide) (by decide))
      .nil)))))))))))

/-- C19.  A log batch that arrives while the lambda is connected closes the
windows exactly when one of its lines holds the phrase `Setting user`, each
letter in either case (the long s counts as an `s`), with at least one more
character that is not a line feed behind it, and then it closes them once,
however many lines match.  A line in which the phrase occurs only at the very
end, such as the phrase alone in any case, closes nothing; the phrase in
capitals or in small letters with a character behind it closes the windows,
and the phrase with a letter changed or a space doubled does not. -/
theorem marker_needs_a_character_behind (lines : List String) (level : MessageLevel) :
    (closings (on_log { connected := true } lines level).2 = 1 ↔
        ∃ line ∈ lines, ∃ front found c tail,
          line.data = front ++ found ++ c :: tail ∧
            List.Forall₂ (fun (alternatives : List Char) (x : Char) => x ∈ alternatives)
              [['S', 's', Char.ofNat 0x17F], ['E', 'e'], ['T', 't'], ['T', 't'], ['I', 'i'],
                ['N', 'n'], ['G', 'g'], [' '], ['U', 'u'], ['S', 's', Char.ofNat 0x17F],
                ['E', 'e'], ['R', 'r']] found ∧ c ≠ '\n')
      ∧ closings (on_log { connected := true } lines level).2 ≤ 1
      ∧ (∀ line : String,
          (∀ front found tail, line.data = front ++ found ++ tail →
            List.Forall₂ (fun (alternatives : List Char) (x : Char) => x ∈ alternatives)
              [['S', 's', Char.ofNat 0x17F], ['E', 'e'], ['T', 't'], ['T', 't'], ['I', 'i'],
                ['N', 'n'], ['G', 'g'], [' '], ['U', 'u'], ['S', 's', Char.ofNat 0x17F],
                ['E', 'e'], ['R', 'r']] found → tail = []) →
          closings (on_log { connected := true } [line] level).2 = 0)
      ∧ closings (on_log { connected := true } ["Setting user"] level).2 = 0
      ∧ closings (on_log { connected := true }
          ["Setting user ABC123", "setting USER xyz"] level).2 = 1
      ∧ closings (on_log { connected := true } ["SETTING USER: Steve"] level).2 = 1
      ∧ closings (on_log { connected := true } ["[main] setting user: Steve"] level).2 = 1
      ∧ closings (on_log { connected := true } ["no marker", "sEtTiNg uSeR!"] level).2 = 1
      ∧ closings (on_log { connected := true } ["[main] SETTING USER"] level).2 = 0
      ∧ closings (on_log { connected := true } ["Setting  user: Steve"] level).2 = 0
      ∧ closings (on_log { connected := true } ["Setting usor: Steve"] level).2 = 0 := by
  have hkept : filterSettingUser lines ≠ [] ↔
      ∃ line ∈ lines, ∃ front found c tail,
        line.data = front ++ found ++ c :: tail ∧
          List.Forall₂ (fun (alternatives : List Char) (x : Char) => x ∈ alternatives)
            [['S', 's', Char.ofNat 0x17F], ['E', 'e'], ['T', 't'], ['T', 't'], ['I', 'i'],
              ['N', 'n'], ['G', 'g'], [' '], ['U', 'u'], ['S', 's', Char.ofNat 0x17F],
              ['E', 'e'], ['R', 'r']] found ∧ c ≠ '\n' := by
    unfold filterSettingUser
    rw [Ne, List.filter_eq_nil_iff]
    push_neg
    constructor
    · rintro ⟨line, hmem, hmatch⟩
      obtain ⟨front, found, c, tail, hsplit, hfound, hc⟩ :=
        (settingUser_iff line.data).mp hmatch
      exact ⟨line, hmem, front, found, c, tail, hsplit, (phrase_iff found).mp hfound, hc⟩
    · rintro ⟨line, hmem, front, found, c, tail, hsplit, hfound, hc⟩
      exact ⟨line, hmem, (settingUser_iff line.data).mpr
        ⟨front, found, c, tail, hsplit, (phrase_iff found).mpr hfound, hc⟩⟩
  have hone : closings (on_log { connected := true } lines level).2 = 1 ↔
      filterSettingUser lines ≠ [] := by
    by_cases hnone : filterSettingUser lines = []
    · simp [(on_log_connected lines level).1 hnone, hnone]
    · simp [(on_log_connected lines level).2 hnone, hnone]
  refine ⟨hone.trans hkept, ?_, ?_, by cases level <;> decide, by cases level <;> decide,
    by cases level <;> decide, by cases level <;> decide, by cases level <;> decide,
    by cases level <;> decide, by cases level <;> decide, by cases level <;> decide⟩
  · by_cases hnone : filterSettingUser lines = []
    · simp [(on_log_connected lines level).1 hnone]
    · simp [(on_log_connected lines level).2 hnone]
  · intro line honly
    apply ((on_log_connected [line] level).1 _).2
    by_contra hsome
    have hkept1 : filterSettingUser [line] ≠ [] := hsome
    unfold filterSettingUser at hkept1
    rw [Ne, List.filter_eq_nil_iff] at hkept1
    push_neg at hkept1
    obtain ⟨l, hmem, hmatch⟩ := hkept1
    rw [List.mem_singleton] at hmem
    subst hmem
    obtain ⟨front, found, c, tail, hsplit, hfound, -⟩ := (settingUser_iff l.data).mp hmatch
    exact absurd (honly front found (c :: tail) hsplit ((phrase_iff found).mp hfound))
      (by simp)

/-- Events handled one sequence after the other. -/
theorem handleAll_append (h : Host) (self : LauncherPartLaunch) (first second : List Event) :
    handleAll h self (first ++ second)
      = ((handleAll h (handleAll h self first).1 second).1,
          (handleAll h self first).2 ++ (handleAll h (handleAll h self first).1 second).2) := by
  induction first generalizing self with
  | nil => simp [handleAll]
  | cons e first ih => simp [handleAll, ih]

/-- No control call leaves the gate open. -/
theorem call_closes_gate (self : LauncherPartLaunch) (c : Call) :
    (call self c).1.mayProceed = false := by
  cases hgate : self.mayProceed <;> cases c with
  | proceed => simp [call, proceed, hgate]
  | abort m_process =>
    unfold call abort
    simp only [hgate]
    first
      | rfl
      | (simp only [Bool.false_eq_true, if_false]; split <;> exact hgate)

/-- A control call that writes found the gate open and writes its control
line, nothing else. -/
theorem call_writes (self : LauncherPartLaunch) (c : Call)
    (hwrites : written (call self c).2 ≠ []) :
    self.mayProceed = true ∧ (call self c).2 = [.write (controlLine c)] := by
  cases hgate : self.mayProceed with
  | false =>
    exfalso
    apply hwrites
    have hquiet := calls_closed_gate self hgate [c]
    simpa [calls, written_append] using hquiet
  | true =>
    cases c with
    | proceed => simp [call, proceed, hgate, controlLine]
    | abort m_process => simp [call, abort, hgate, controlLine]

/-- No event changes the launch script. -/
theorem handle_keeps_script (h : Host) (self : LauncherPartLaunch) (e : Event) :
    (handle h self e).1.m_launchScript = self.m_launchScript := by
  cases e with
  | stateChanged m_process state =>
    cases state <;> simp only [handle, on_state]
    split <;> rfl
  | control c =>
    cases c with
    | proceed =>
      simp only [handle, call, proceed]
      split <;> rfl
    | abort m_process =>
      simp only [handle, call, abort]
      split
      · rfl
      · split <;> rfl

/-- Only the `Running` state change opens the gate: every other event leaves
it as it is or closes it. -/
theorem handle_opens_gate (h : Host) (self : LauncherPartLaunch) (e : Event)
    (hopen : (handle h self e).1.mayProceed = true) :
    self.mayProceed = true ∨
      ∃ m_process, e = .stateChanged m_process .Running ∧
        Effect.write self.m_launchScript ∈ (handle h self e).2 := by
  cases e with
  | control c =>
    rw [handle, call_closes_gate] at hopen
    exact absurd hopen (by simp)
  | stateChanged m_process state =>
    cases state with
    | Running => exact Or.inr ⟨m_process, rfl, by simp [handle, on_state]⟩
    | Finished =>
      left
      simp only [handle, on_state] at hopen
      split at hopen <;> exact hopen
    | _ => exact Or.inl hopen

/-- When the gate is open after a trace, it was open before, or the trace
holds a `Running` state change and the launch script was written. -/
theorem gate_open_after (h : Host) (self : LauncherPartLaunch) (events : List Event)
    (hopen : (handleAll h self events).1.mayProceed = true) :
    self.mayProceed = true ∨
      ((∃ m_process, Event.stateChanged m_process .Running ∈ events) ∧
        Effect.write self.m_launchScript ∈ (handleAll h self events).2) := by
  induction events generalizing self with
  | nil => exact Or.inl hopen
  | cons e events ih =>
    rcases ih (handle h self e).1 hopen with hnow | ⟨⟨m_process, hmem⟩, hwritten⟩
    · rcases handle_opens_gate h self e hnow with hbefore | ⟨m_process, hrun, hwritten⟩
      · exact Or.inl hbefore
      · exact Or.inr ⟨⟨m_process, by simp [hrun]⟩, by simp [handleAll, hwritten]⟩
    · rw [handle_keeps_script] at hwritten
      exact Or.inr ⟨⟨m_process, by simp [hmem]⟩, by simp [handleAll, hwritten]⟩

/-- C11.  The `Running` case of `on_state` runs its statements in program
order: the launch script is written while the gate still has its old value,
then the gate is opened, then `readyForLaunch` is emitted.  So in every trace
of state changes and control calls that starts with the gate closed, a control
call that writes comes after a `Running` state change, and its control line
comes after the write of the launch script. -/
theorem payload_precedes_control_line (h : Host) (m_process : LoggedProcess)
    (self : LauncherPartLaunch) :
    on_state h m_process self .Running = execute self (runningStatements m_process self)
      ∧ (∃ earlier, runningStatements m_process self
            = earlier ++ [.effect (.write self.m_launchScript), .assignMayProceed true,
                .effect .readyForLaunch]
          ∧ (execute self (earlier ++ [.effect (.write self.m_launchScript)])).1.mayProceed
              = self.mayProceed
          ∧ (execute self (earlier ++ [.effect (.write self.m_launchScript),
                .assignMayProceed true])).1.mayProceed = true)
      ∧ (on_state h m_process self .Running).2
          = [ .logLine (qArg "Minecraft process ID: %1\n\n" (toString m_process.processId))
                .Launcher,
              .setPid m_process.processId, .setLastLaunch, .write self.m_launchScript,
              .readyForLaunch ]
      ∧ ∀ (before after : List Event) (c : Call),
          self.mayProceed = false →
          written (call (handleAll h self before).1 c).2 ≠ [] →
          (∃ p, Event.stateChanged p .Running ∈ before)
            ∧ ∃ e1 e2 rest,
                (handleAll h self (before ++ .control c :: after)).2
                  = e1 ++ [.write self.m_launchScript] ++ e2 ++ [.write (controlLine c)]
                      ++ rest := by
  refine ⟨rfl, ⟨(runningStatements m_process self).take 3, rfl, rfl, rfl⟩, rfl, ?_⟩
  intro before after c hclosed hwrites
  obtain ⟨hopen, hline⟩ := call_writes _ c hwrites
  rcases gate_open_after h self before hopen with hbad | ⟨hrunning, hwritten⟩
  · rw [hclosed] at hbad
    exact absurd hbad (by simp)
  · obtain ⟨e1, e2, hsplit⟩ := List.append_of_mem hwritten
    refine ⟨hrunning, e1, e2, (handleAll h (call (handleAll h self before).1 c).1 after).2, ?_⟩
    rw [handleAll_append]
    simp only [handleAll, handle, hline, hsplit]
    simp

/-- C11 at a concrete trace: a `Running` state change followed by `proceed`. -/
theorem payload_precedes_control_line_witness :
    (freshStep.mayProceed = false ∧
      written (call (handleAll linuxHost freshStep
        [.stateChanged runningProcess .Running]).1 .proceed).2 ≠ []) ∧
    ((∃ p, Event.stateChanged p .Running ∈ [Event.stateChanged runningProcess .Running])
      ∧ ∃ e1 e2 rest,
          (handleAll linuxHost freshStep
            ([.stateChanged runningProcess .Running] ++ .control .proceed :: [])).2
            = e1 ++ [.write freshStep.m_launchScript] ++ e2 ++ [.write (controlLine .proceed)]
                ++ rest) :=
  ⟨by decide,
    (payload_precedes_control_line linuxHost runningProcess freshStep).2.2.2
      [.stateChanged runningProcess .Running] [] .proceed (by decide) (by decide)⟩

/-- C13, as amended.  A terminal state change leaves the gate as it was, and
the control calls look at nothing but the gate: after the state change,
`proceed` writes its line exactly when the gate was still open, `abort` does
the same with its own line and kills nothing, and neither reports a failure. -/
theorem terminal_state_keeps_gate (h : Host) (m_process later : LoggedProcess)
    (self : LauncherPartLaunch) (state : State)
    (hterminal : state = .Finished ∨ state = .Crashed ∨ state = .Aborted ∨
      state = .FailedToStart)
    (hlater : later.state = state) :
    (on_state h m_process self state).1 = self
      ∧ (proceed (on_state h m_process self state).1).2
          = (if self.mayProceed then [.write "launch\n"] else [])
      ∧ (abort later (on_state h m_process self state).1).2.1
          = (if self.mayProceed then [.write "abort\n"] else [])
      ∧ failures (proceed (on_state h m_process self state).1).2 = []
      ∧ failures (abort later (on_state h m_process self state).1).2.1 = [] := by
  have hsame : (on_state h m_process self state).1 = self := by
    rcases hterminal with rfl | rfl | rfl | rfl <;> simp only [on_state]
    split <;> rfl
  have hstate : ¬ (later.state = .Running ∨ later.state = .Starting) := by
    rw [hlater]
    rcases hterminal with rfl | rfl | rfl | rfl <;> simp
  rw [hsame]
  cases hgate : self.mayProceed
  · have h1 : ¬ later.state = .Running := fun hs => hstate (Or.inl hs)
    have h2 : ¬ later.state = .Starting := fun hs => hstate (Or.inr hs)
    simp [proceed, abort, hgate, failures, h1, h2]
  · simp [proceed, abort, hgate, failures]

/-- C13 fails as stated: after `Running` and then `Finished`, with no control
call in between, `proceed` still writes its line to the process, and so does
`abort`. -/
theorem proceed_writes_after_finished :
    (call (handleAll linuxHost freshStep
        [.stateChanged runningProcess .Running,
         .stateChanged finishedProcess .Finished]).1 .proceed).2
        = [.write "launch\n"]
      ∧ (call (handleAll linuxHost freshStep
        [.stateChanged runningProcess .Running,
         .stateChanged finishedProcess .Finished]).1 (.abort finishedProcess)).2
        = [.write "abort\n"] := by
  decide

/-- The hypotheses of `terminal_state_keeps_gate` hold for a process that has
finished. -/
theorem terminal_state_keeps_gate_witness :
    ((State.Finished = .Finished ∨ State.Finished = .Crashed ∨ State.Finished = .Aborted ∨
        State.Finished = .FailedToStart) ∧ finishedProcess.state = .Finished) ∧
    ((on_state linuxHost finishedProcess freshStep .Finished).1 = freshStep
      ∧ (proceed (on_state linuxHost finishedProcess freshStep .Finished).1).2
          = (if freshStep.mayProceed then [.write "launch\n"] else [])
      ∧ (abort finishedProcess (on_state linuxHost finishedProcess freshStep .Finished).1).2.1
          = (if freshStep.mayProceed then [.write "abort\n"] else [])
      ∧ failures (proceed (on_state linuxHost finishedProcess freshStep .Finished).1).2 = []
      ∧ failures (abort finishedProcess
          (on_state linuxHost finishedProcess freshStep .Finished).1).2.1 = []) :=
  ⟨by decide, terminal_state_keeps_gate linuxHost finishedProcess finishedProcess freshStep
    .Finished (by decide) (by decide)⟩

/-- A block that is empty or one option, flattened again. -/
theorem flatten_asOption (block : List String) : (asOption block).flatten = block := by
  cases block <;> simp [asOption]

/-- The list `bwrapArgs` is the sandbox tool, the options of lines 203-258,
the two lists of extra arguments and `--`. -/
theorem bwrapArgs_eq_options (h : Host) (jarPath : String) :
    bwrapArgs h jarPath
      = [h.getBwrapBinary] ++ (bwrapOptions h jarPath).flatten
          ++ h.splitArgs h.LINUX_BWRAP_EXTRA_ARGS
          ++ h.splitArgs (h.settingsString "BwrapExtraArgs") ++ ["--"] := by
  simp only [bwrapArgs, bwrapOptions, launcherBinds, List.flatten_append, flatten_asOption,
    List.flatMap_def, List.flatten_cons, List.flatten_nil, List.append_assoc,
    List.cons_append, List.nil_append, List.append_nil, List.singleton_append]

/-- C17.  The list `bwrapArgs` starts with the sandbox tool, `--unshare-all`,
`--share-net`, `--die-with-parent`, `--unsetenv` and
`DBUS_SESSION_BUS_ADDRESS`, whatever the launch asks for, and so does the
list `args` behind the sandbox section when sandboxing is requested and
available. -/
theorem bwrapArgs_leading_flags (h : Host) (jarPath : String) :
    (∃ rest, bwrapArgs h jarPath
        = [h.getBwrapBinary, "--unshare-all", "--share-net", "--die-with-parent",
            "--unsetenv", "DBUS_SESSION_BUS_ADDRESS"] ++ rest)
      ∧ ((wantSandbox h && canSandbox h) = true →
          ∃ rest, sandboxedInvocation h jarPath
            = some ([h.getBwrapBinary, "--unshare-all", "--share-net", "--die-with-parent",
                "--unsetenv", "DBUS_SESSION_BUS_ADDRESS"] ++ rest)) := by
  have hargs : ∃ rest, bwrapArgs h jarPath
      = [h.getBwrapBinary, "--unshare-all", "--share-net", "--die-with-parent",
          "--unsetenv", "DBUS_SESSION_BUS_ADDRESS"] ++ rest := by
    refine ⟨(bwrapArgs h jarPath).drop 6, ?_⟩
    simp [bwrapArgs]
  refine ⟨hargs, ?_⟩
  intro hactive
  obtain ⟨rest, hrest⟩ := hargs
  have hlinux : h.platform ≠ .Windows := by
    rw [((sandbox_active_iff h).mp hactive).2.1]
    decide
  obtain ⟨args, hjava⟩ := javaArgs_isSome_off_windows h jarPath hlinux
  refine ⟨rest ++ h.ResolveExecutable (h.settingsString "JavaPath") :: args, ?_⟩
  rw [(sandboxedInvocation_eq h jarPath args hjava).2, if_pos hactive, hrest,
    List.append_assoc]

/-- The blocks of the list `bwrapArgs`, in the order of the source. -/
theorem bwrapArgs_blocks (h : Host) (jarPath : String) :
    bwrapArgs h jarPath
      = [h.getBwrapBinary]
        ++ ["--unshare-all", "--share-net", "--die-with-parent", "--unsetenv",
            "DBUS_SESSION_BUS_ADDRESS"]
        ++ ["--dev", "/dev", "--dev-bind-try", "/dev/dri", "/dev/dri", "--proc", "/proc",
            "--setenv", "XDG_RUNTIME_DIR", "/tmp"]
        ++ systemBinds.flatMap (fun path => ["--ro-bind-try", path, path])
        ++ (["--ro-bind-try", qArg "%1/pulse" (h.writableLocation .RuntimeLocation),
              qArg "%1/pulse" "/tmp"]
            ++ ["--ro-bind-try", qArg "%1/pipewire-0" (h.writableLocation .RuntimeLocation),
              qArg "%1/pipewire-0" "/tmp"]
            ++ x11Bind h ++ xAuthBind h
            ++ waylandBind h (h.writableLocation .RuntimeLocation) "/tmp"
            ++ mangoHudBind h)
        ++ ["--bind", h.absoluteNativePath h.instanceRoot, h.absoluteNativePath h.instanceRoot,
            "--ro-bind", h.absoluteNativePath "assets", h.absoluteNativePath "assets",
            "--ro-bind", h.absoluteNativePath "libraries", h.absoluteNativePath "libraries",
            "--ro-bind", jarPath, jarPath]
        ++ h.splitArgs h.LINUX_BWRAP_EXTRA_ARGS
        ++ h.splitArgs (h.settingsString "BwrapExtraArgs")
        ++ ["--"] := by
  simp only [bwrapArgs, launcherBinds, List.append_assoc, List.cons_append, List.nil_append,
    List.singleton_append]

/-- C15.  The list `bwrapArgs` is made of these blocks, in this order: the
sandbox tool, the namespace and environment flags, the default binds, the
binds of the system directories, the desktop binds, the binds of the instance
(instance directory, assets, libraries, support jar), the extra arguments of
the build, the extra arguments of the instance, and `--`.  With sandboxing
requested and available the Java invocation follows that `--`. -/
theorem sandbox_blocks_in_order (h : Host) (jarPath : String) :
    bwrapArgs h jarPath
      = [h.getBwrapBinary]
        ++ ["--unshare-all", "--share-net", "--die-with-parent", "--unsetenv",
            "DBUS_SESSION_BUS_ADDRESS"]
        ++ ["--dev", "/dev", "--dev-bind-try", "/dev/dri", "/dev/dri", "--proc", "/proc",
            "--setenv", "XDG_RUNTIME_DIR", "/tmp"]
        ++ systemBinds.flatMap (fun path => ["--ro-bind-try", path, path])
        ++ (["--ro-bind-try", qArg "%1/pulse" (h.writableLocation .RuntimeLocation),
              qArg "%1/pulse" "/tmp"]
            ++ ["--ro-bind-try", qArg "%1/pipewire-0" (h.writableLocation .RuntimeLocation),
              qArg "%1/pipewire-0" "/tmp"]
            ++ x11Bind h ++ xAuthBind h
            ++ waylandBind h (h.writableLocation .RuntimeLocation) "/tmp"
            ++ mangoHudBind h)
        ++ ["--bind", h.absoluteNativePath h.instanceRoot, h.absoluteNativePath h.instanceRoot,
            "--ro-bind", h.absoluteNativePath "assets", h.absoluteNativePath "assets",
            "--ro-bind", h.absoluteNativePath "libraries", h.absoluteNativePath "libraries",
            "--ro-bind", jarPath, jarPath]
        ++ h.splitArgs h.LINUX_BWRAP_EXTRA_ARGS
        ++ h.splitArgs (h.settingsString "BwrapExtraArgs")
        ++ ["--"]
      ∧ ((wantSandbox h && canSandbox h) = true →
          ∃ invocation, javaInvocation h jarPath = some invocation
            ∧ sandboxedInvocation h jarPath = some (bwrapArgs h jarPath ++ invocation)) := by
  refine ⟨bwrapArgs_blocks h jarPath, ?_⟩
  intro hactive
  have hlinux : h.platform ≠ .Windows := by
    rw [((sandbox_active_iff h).mp hactive).2.1]
    decide
  obtain ⟨args, hjava⟩ := javaArgs_isSome_off_windows h jarPath hlinux
  obtain ⟨hinvocation, hsandboxed⟩ := sandboxedInvocation_eq h jarPath args hjava
  rw [if_pos hactive] at hsandboxed
  exact ⟨_, hinvocation, hsandboxed⟩

/-- The blocks of the sandbox arguments, grouped around the system binds. -/
theorem regroup_blocks (a b c s d e f g l : List String) :
    a ++ b ++ c ++ s ++ d ++ e ++ f ++ g ++ l = (a ++ b ++ c) ++ s ++ (d ++ e ++ f) ++ g ++ l := by
  simp only [List.append_assoc]

/-- C14, as amended.  The extra sandbox arguments of the instance are put into
the list as they are split, behind the binds of all system directories and
directly before `--`.  So a bind of a path that the extra arguments spell out
in full stands behind every system bind. -/
theorem extra_arguments_follow_system_binds (h : Host) (jarPath : String)
    (option p : String) (front back : List String)
    (hextra : h.splitArgs (h.settingsString "BwrapExtraArgs")
      = front ++ [option, p, p] ++ back) :
    (∃ before between, bwrapArgs h jarPath
        = before ++ systemBinds.flatMap (fun path => ["--ro-bind-try", path, path])
            ++ between ++ h.splitArgs (h.settingsString "BwrapExtraArgs") ++ ["--"])
      ∧ ∃ before between, bwrapArgs h jarPath
          = before ++ systemBinds.flatMap (fun path => ["--ro-bind-try", path, path])
              ++ between ++ [option, p, p] ++ back ++ ["--"] := by
  have hblocks := (bwrapArgs_blocks h jarPath).trans (regroup_blocks _ _ _ _ _ _ _ _ _)
  obtain ⟨before, between, hshape⟩ : ∃ before between, bwrapArgs h jarPath
      = before ++ systemBinds.flatMap (fun path => ["--ro-bind-try", path, path])
          ++ between ++ h.splitArgs (h.settingsString "BwrapExtraArgs") ++ ["--"] :=
    ⟨_, _, hblocks⟩
  refine ⟨⟨before, between, hshape⟩, before, between ++ front, ?_⟩
  rw [hshape, hextra]
  simp only [List.append_assoc]

set_option maxRecDepth 100000 in
/-- C14 fails as stated: with the bare path `/opt/custom` as extra sandbox
arguments, the path stands once in the list, directly before `--`, and no
read-only bind of it is in the list. -/
theorem bare_extra_path_is_not_bound :
    extraPathHost.splitArgs (extraPathHost.settingsString "BwrapExtraArgs") = ["/opt/custom"]
      ∧ (bwrapArgs extraPathHost (extraPathHost.getJarPath "NewLaunch.jar")).count "/opt/custom"
          = 1
      ∧ ["--ro-bind", "/usr/share/PrismLauncher/NewLaunch.jar",
          "/usr/share/PrismLauncher/NewLaunch.jar", "/opt/custom", "--"]
          <:+ bwrapArgs extraPathHost (extraPathHost.getJarPath "NewLaunch.jar")
      ∧ ¬ (["--ro-bind", "/opt/custom", "/opt/custom"]
          <:+: bwrapArgs extraPathHost (extraPathHost.getJarPath "NewLaunch.jar"))
      ∧ ¬ (["--ro-bind-try", "/opt/custom", "/opt/custom"]
          <:+: bwrapArgs extraPathHost (extraPathHost.getJarPath "NewLaunch.jar")) := by
  decide

/-- The hypothesis of `extra_arguments_follow_system_binds` holds when the
extra arguments spell out the read-only bind of `/opt/custom`. -/
theorem extra_arguments_follow_system_binds_witness :
    extraBindHost.splitArgs (extraBindHost.settingsString "BwrapExtraArgs")
        = [] ++ ["--ro-bind", "/opt/custom", "/opt/custom"] ++ []
      ∧ ((∃ before between,
          bwrapArgs extraBindHost (extraBindHost.getJarPath "NewLaunch.jar")
            = before ++ systemBinds.flatMap (fun path => ["--ro-bind-try", path, path])
                ++ between
                ++ extraBindHost.splitArgs (extraBindHost.settingsString "BwrapExtraArgs")
                ++ ["--"])
        ∧ ∃ before between,
          bwrapArgs extraBindHost (extraBindHost.getJarPath "NewLaunch.jar")
            = before ++ systemBinds.flatMap (fun path => ["--ro-bind-try", path, path])
                ++ between ++ ["--ro-bind", "/opt/custom", "/opt/custom"] ++ [] ++ ["--"]) :=
  ⟨by decide, extra_arguments_follow_system_binds extraBindHost _ "--ro-bind" "/opt/custom"
    [] [] (by decide)⟩

/-- C16, as amended.  With both lists of extra arguments empty, the list
`bwrapArgs` is the sandbox tool, the options of lines 203-258 and `--`.  Among
these options each of the twelve system directories is bound read-only onto
itself, and so are the assets directory, the libraries directory and the
support jar.  The options that bind a host path without making it read-only
are two: the device bind of `/dev/dri` and the bind of the instance
directory. -/
theorem instance_and_dri_binds_writable (h : Host) (jarPath : String)
    (hbuild : h.splitArgs h.LINUX_BWRAP_EXTRA_ARGS = [])
    (hinstance : h.splitArgs (h.settingsString "BwrapExtraArgs") = []) :
    bwrapArgs h jarPath = [h.getBwrapBinary] ++ (bwrapOptions h jarPath).flatten ++ ["--"]
      ∧ systemBinds.length = 12
      ∧ (∀ path ∈ systemBinds, ["--ro-bind-try", path, path] ∈ bwrapOptions h jarPath)
      ∧ ["--ro-bind", h.absoluteNativePath "assets", h.absoluteNativePath "assets"]
          ∈ bwrapOptions h jarPath
      ∧ ["--ro-bind", h.absoluteNativePath "libraries", h.absoluteNativePath "libraries"]
          ∈ bwrapOptions h jarPath
      ∧ ["--ro-bind", jarPath, jarPath] ∈ bwrapOptions h jarPath
      ∧ (bwrapOptions h jarPath).filter bindsWritable
          = [ ["--dev-bind-try", "/dev/dri", "/dev/dri"],
              ["--bind", h.absoluteNativePath h.instanceRoot,
                h.absoluteNativePath h.instanceRoot] ] := by
  refine ⟨?_, rfl, ?_, ?_, ?_, ?_, ?_⟩
  · rw [bwrapArgs_eq_options, hbuild, hinstance]
    simp
  · intro path hpath
    simp only [bwrapOptions, List.mem_append, List.mem_map]
    exact Or.inl (Or.inl (Or.inl (Or.inl (Or.inl (Or.inl (Or.inr ⟨path, hpath, rfl⟩))))))
  · simp [bwrapOptions]
  · simp [bwrapOptions]
  · simp [bwrapOptions]
  · have hx11 : (asOption (x11Bind h)).filter bindsWritable = [] := by
      unfold x11Bind
      dsimp only
      split <;> simp [asOption, bindsWritable]
    have hmango : (asOption (mangoHudBind h)).filter bindsWritable = [] := by
      unfold mangoHudBind
      split <;> simp [asOption, bindsWritable]
    have hxauth : bindsWritable (xAuthBind h) = false := by simp [xAuthBind, bindsWritable]
    have hwayland : bindsWritable
        (waylandBind h (h.writableLocation .RuntimeLocation) "/tmp") = false := by
      unfold waylandBind
      dsimp only
      split <;> simp [bindsWritable]
    have hsystem : (systemBinds.map (fun path => ["--ro-bind-try", path, path])).filter
        bindsWritable = [] := by
      simp [List.filter_eq_nil_iff, bindsWritable]
    simp only [bwrapOptions, List.filter_append, List.filter_cons, List.filter_nil, hx11,
      hmango, hsystem, hxauth, hwayland]
    simp [bindsWritable]

/-- C16 fails as stated: the list built with empty extra arguments holds the
device bind of `/dev/dri`, an option that binds a host path other than the
instance directory without making it read-only. -/
theorem dri_device_bind_not_read_only :
    sandboxHost.splitArgs sandboxHost.LINUX_BWRAP_EXTRA_ARGS = []
      ∧ sandboxHost.splitArgs (sandboxHost.settingsString "BwrapExtraArgs") = []
      ∧ (bwrapArgs sandboxHost (sandboxHost.getJarPath "NewLaunch.jar")).take 11
          = ["/usr/bin/bwrap", "--unshare-all", "--share-net", "--die-with-parent",
              "--unsetenv", "DBUS_SESSION_BUS_ADDRESS", "--dev", "/dev",
              "--dev-bind-try", "/dev/dri", "/dev/dri"]
      ∧ ["--dev-bind-try", "/dev/dri", "/dev/dri"]
          ∈ bwrapOptions sandboxHost (sandboxHost.getJarPath "NewLaunch.jar")
      ∧ bindsWritable ["--dev-bind-try", "/dev/dri", "/dev/dri"] = true
      ∧ sandboxHost.absoluteNativePath sandboxHost.instanceRoot ≠ "/dev/dri" := by
  decide

/-- The hypotheses of `instance_and_dri_binds_writable` hold on the Linux
desktop with sandboxing requested and no extra arguments. -/
theorem instance_and_dri_binds_writable_witness :
    (sandboxHost.splitArgs sandboxHost.LINUX_BWRAP_EXTRA_ARGS = []
      ∧ sandboxHost.splitArgs (sandboxHost.settingsString "BwrapExtraArgs") = [])
    ∧ (bwrapArgs sandboxHost "/usr/share/PrismLauncher/NewLaunch.jar"
        = [sandboxHost.getBwrapBinary]
            ++ (bwrapOptions sandboxHost "/usr/share/PrismLauncher/NewLaunch.jar").flatten
            ++ ["--"]
      ∧ systemBinds.length = 12
      ∧ (∀ path ∈ systemBinds, ["--ro-bind-try", path, path]
          ∈ bwrapOptions sandboxHost "/usr/share/PrismLauncher/NewLaunch.jar")
      ∧ ["--ro-bind", sandboxHost.absoluteNativePath "assets",
            sandboxHost.absoluteNativePath "assets"]
          ∈ bwrapOptions sandboxHost "/usr/share/PrismLauncher/NewLaunch.jar"
      ∧ ["--ro-bind", sandboxHost.absoluteNativePath "libraries",
            sandboxHost.absoluteNativePath "libraries"]
          ∈ bwrapOptions sandboxHost "/usr/share/PrismLauncher/NewLaunch.jar"
      ∧ ["--ro-bind", "/usr/share/PrismLauncher/NewLaunch.jar",
            "/usr/share/PrismLauncher/NewLaunch.jar"]
          ∈ bwrapOptions sandboxHost "/usr/share/PrismLauncher/NewLaunch.jar"
      ∧ (bwrapOptions sandboxHost "/usr/share/PrismLauncher/NewLaunch.jar").filter bindsWritable
          = [ ["--dev-bind-try", "/dev/dri", "/dev/dri"],
              ["--bind", sandboxHost.absoluteNativePath sandboxHost.instanceRoot,
                sandboxHost.absoluteNativePath sandboxHost.instanceRoot] ]) :=
  ⟨by decide, instance_and_dri_binds_writable sandboxHost
    "/usr/share/PrismLauncher/NewLaunch.jar" (by decide) (by decide)⟩

/-- The path of the X11 socket with its place marker filled. -/
theorem qArg_x11Socket (rest : String) :
    qArg "/tmp/.X11-unix/X%1" rest = "/tmp/.X11-unix/X" ++ rest := by
  apply String.ext
  simp [qArg, argChars]

/-- The blocks of the sandbox arguments, grouped around the display binds. -/
theorem regroup_display_blocks (t f d s p w x a y m i b e l : List String) :
    t ++ f ++ d ++ s ++ (p ++ w ++ x ++ a ++ y ++ m) ++ i ++ b ++ e ++ l
      = (t ++ f ++ d ++ s ++ p ++ w) ++ x ++ a ++ y ++ (m ++ i ++ b ++ e ++ l) := by
  simp only [List.append_assoc]

/-- The path of the PipeWire socket with its place marker filled. -/
theorem qArg_pipewire (dir : String) : qArg "%1/pipewire-0" dir = dir ++ "/pipewire-0" := by
  apply String.ext
  simp [qArg, argChars]

set_option maxRecDepth 100000 in
/-- C20.  In the list `bwrapArgs` the read-only bind of the PipeWire socket
stands at place 55, and behind it come the X11 block, the read-only bind of
the Xauthority file and the Wayland bind.  The Wayland bind is always there: a
read-only bind of the value of `WAYLAND_DISPLAY` onto itself when the value
starts with a slash, and otherwise, also for the empty value and for a
variable that is not set, a read-only bind of `PathCombine` of the runtime
directory and the value onto `PathCombine` of `/tmp` and the value; when
`PathCombine` returns its first argument for an empty second one, a variable
that is not set binds the runtime directory onto `/tmp`.  The X11 block is the
read-only bind of `/tmp/.X11-unix/X` followed by the value of `DISPLAY`
without its first character when that value starts with a colon, and empty
otherwise.  Three desktops show the places in the list. -/
theorem wayland_bind_always_x11_bind_on_colon (h : Host) (jarPath : String) :
    (∃ front x11 wayland back,
      bwrapArgs h jarPath
          = front
            ++ ["--ro-bind-try", h.writableLocation .RuntimeLocation ++ "/pipewire-0",
                "/tmp/pipewire-0"]
            ++ x11
            ++ ["--ro-bind-try",
                (h.environment "XAUTHORITY").getD
                  (h.PathCombine (h.writableLocation .HomeLocation) ".Xauthority"),
                (h.environment "XAUTHORITY").getD
                  (h.PathCombine (h.writableLocation .HomeLocation) ".Xauthority")]
            ++ wayland ++ back
        ∧ front.length = 55
        ∧ (∃ source target, wayland = ["--ro-bind-try", source, target])
        ∧ (∀ display rest, h.environment "DISPLAY" = some display →
            display.data = ':' :: rest →
            x11 = ["--ro-bind-try", "/tmp/.X11-unix/X" ++ String.mk rest,
                    "/tmp/.X11-unix/X" ++ String.mk rest])
        ∧ ((∀ display, h.environment "DISPLAY" = some display →
              display.data.head? ≠ some ':') → x11 = [])
        ∧ (∀ display rest, h.environment "WAYLAND_DISPLAY" = some display →
            display.data = '/' :: rest → wayland = ["--ro-bind-try", display, display])
        ∧ (∀ display, h.environment "WAYLAND_DISPLAY" = some display →
            display.data.head? ≠ some '/' →
            wayland = ["--ro-bind-try",
                        h.PathCombine (h.writableLocation .RuntimeLocation) display,
                        h.PathCombine "/tmp" display])
        ∧ (h.environment "WAYLAND_DISPLAY" = none →
            wayland = ["--ro-bind-try", h.PathCombine (h.writableLocation .RuntimeLocation) "",
                        h.PathCombine "/tmp" ""])
        ∧ (h.environment "WAYLAND_DISPLAY" = none → (∀ path, h.PathCombine path "" = path) →
            wayland = ["--ro-bind-try", h.writableLocation .RuntimeLocation, "/tmp"]))
      ∧ ((bwrapArgs x11Host "/usr/share/PrismLauncher/NewLaunch.jar").drop 55).take 13
          = ["--ro-bind-try", "/run/user/1000/pipewire-0", "/tmp/pipewire-0",
              "--ro-bind-try", "/tmp/.X11-unix/X1", "/tmp/.X11-unix/X1",
              "--ro-bind-try", "/home/steve/.Xauthority", "/home/steve/.Xauthority",
              "--ro-bind-try", "/run/user/1000", "/tmp",
              "--bind"]
      ∧ ((bwrapArgs waylandHost "/usr/share/PrismLauncher/NewLaunch.jar").drop 55).take 10
          = ["--ro-bind-try", "/run/user/1000/pipewire-0", "/tmp/pipewire-0",
              "--ro-bind-try", "/home/steve/.Xauthority", "/home/steve/.Xauthority",
              "--ro-bind-try", "/run/user/1000/wayland-0", "/tmp/wayland-0",
              "--bind"]
      ∧ ((bwrapArgs waylandSocketHost "/usr/share/PrismLauncher/NewLaunch.jar").drop 55).take 10
          = ["--ro-bind-try", "/run/user/1000/pipewire-0", "/tmp/pipewire-0",
              "--ro-bind-try", "/home/steve/.Xauthority", "/home/steve/.Xauthority",
              "--ro-bind-try", "/run/user/1000/wayland-1", "/run/user/1000/wayland-1",
              "--bind"] := by
  have hunset : h.environment "WAYLAND_DISPLAY" = none →
      waylandBind h (h.writableLocation .RuntimeLocation) "/tmp"
        = ["--ro-bind-try", h.PathCombine (h.writableLocation .RuntimeLocation) "",
            h.PathCombine "/tmp" ""] := by
    intro hnone
    have hempty : qEnvironmentVariable h "WAYLAND_DISPLAY" = "" := by
      simp [qEnvironmentVariable, hnone]
    simp only [waylandBind, hempty]
    rfl
  refine ⟨⟨[h.getBwrapBinary]
        ++ ["--unshare-all", "--share-net", "--die-with-parent", "--unsetenv",
            "DBUS_SESSION_BUS_ADDRESS"]
        ++ ["--dev", "/dev", "--dev-bind-try", "/dev/dri", "/dev/dri", "--proc", "/proc",
            "--setenv", "XDG_RUNTIME_DIR", "/tmp"]
        ++ systemBinds.flatMap (fun path => ["--ro-bind-try", path, path])
        ++ ["--ro-bind-try", qArg "%1/pulse" (h.writableLocation .RuntimeLocation),
              qArg "%1/pulse" "/tmp"],
      x11Bind h, waylandBind h (h.writableLocation .RuntimeLocation) "/tmp",
      mangoHudBind h
        ++ ["--bind", h.absoluteNativePath h.instanceRoot, h.absoluteNativePath h.instanceRoot,
            "--ro-bind", h.absoluteNativePath "assets", h.absoluteNativePath "assets",
            "--ro-bind", h.absoluteNativePath "libraries", h.absoluteNativePath "libraries",
            "--ro-bind", jarPath, jarPath]
        ++ h.splitArgs h.LINUX_BWRAP_EXTRA_ARGS
        ++ h.splitArgs (h.settingsString "BwrapExtraArgs")
        ++ ["--"],
    ?_, ?_, ?_, ?_, ?_, ?_, ?_, hunset, ?_⟩, by decide, by decide, by decide⟩
  · rw [bwrapArgs_blocks h jarPath, qArg_pipewire, qArg_pipewire]
    have htmp : ("/tmp" : String) ++ "/pipewire-0" = "/tmp/pipewire-0" := by decide
    simp only [xAuthBind, qEnvironmentVariableOr, List.append_assoc, htmp]
  · simp [systemBinds]
  · unfold waylandBind
    dsimp only
    split
    · exact ⟨_, _, rfl⟩
    · exact ⟨_, _, rfl⟩
  · intro display rest hset hcolon
    have hvalue : qEnvironmentVariable h "DISPLAY" = display := by
      simp [qEnvironmentVariable, hset]
    have hrest : mid1 display = String.mk rest := by
      simp [mid1, hcolon]
    simp [x11Bind, hvalue, startsWithChar, hcolon, qArg_x11Socket, hrest]
  · intro hnever
    have hstart : startsWithChar (qEnvironmentVariable h "DISPLAY") ':' = false := by
      cases hset : h.environment "DISPLAY" with
      | none => simp [qEnvironmentVariable, hset, startsWithChar]
      | some display =>
        simpa [qEnvironmentVariable, hset, startsWithChar] using hnever display hset
    simp [x11Bind, hstart]
  · intro display rest hset hslash
    have hvalue : qEnvironmentVariable h "WAYLAND_DISPLAY" = display := by
      simp [qEnvironmentVariable, hset]
    simp [waylandBind, hvalue, startsWithChar, hslash]
  · intro display hset hother
    have hvalue : qEnvironmentVariable h "WAYLAND_DISPLAY" = display := by
      simp [qEnvironmentVariable, hset]
    have hstart : startsWithChar display '/' = false := by
      simpa [startsWithChar] using hother
    simp [waylandBind, hvalue, hstart]
  · intro hnone hcombine
    rw [hunset hnone, hcombine, hcombine]

/-- C18, at a run that ends in neither of the two ways.  In a Windows build
whose native path does not fit in the local 8 bit encoding and has no short
path name, `GetShortPathNameW` returns 0 and `shortPathName` throws at
`output.resize(length - 1)`.  The run of `executeTask` ends there: after the
log line of the Java arguments, with no failure reported and no call of
`m_process.start`. -/
theorem executeTask_throws_without_short_path :
    windowsMissingHost.platform = .Windows
      ∧ windowsMissingHost.getJarPath "NewLaunch.jar" ≠ ""
      ∧ fitsInLocal8bit windowsMissingHost windowsMissingHost.getNativePath = false
      ∧ windowsMissingHost.GetShortPathNameW windowsMissingHost.getNativePath = none
      ∧ shortPathName windowsMissingHost windowsMissingHost.getNativePath = none
      ∧ executeTask windowsMissingHost freshStep
        = .threw [.logLine "Java Arguments:\n[-Xms512m, -Xmx4096m]\n\n" .Launcher,
            .setProcessEnvironment [("INST_NAME", "demo")], .setDetachable true]
      ∧ failures (executeTask windowsMissingHost freshStep).effects = []
      ∧ started (executeTask windowsMissingHost freshStep).effects = [] := by
  decide

/-- C21.  With `CloseAfterLaunch` set, the `Finished` case of `on_state` shows
the main window first, then resets the process id to -1, then reports the
result, a failure for a nonzero exit code and success for zero.  The cases
`Aborted`, `Crashed` and `FailedToStart` never show the main window.  The
cases `Aborted`, `Crashed` and `Finished` hand -1 to `setPid`, the case
`Running` hands it the process id of the child, and `FailedToStart` does not
call it. -/
theorem on_state_window_and_pid (h : Host) (m_process : LoggedProcess)
    (self : LauncherPartLaunch) :
    (h.settingsBool "CloseAfterLaunch" = true →
        (on_state h m_process self .Finished).2
          = [.showMainWindow, .setPid (-1),
              if m_process.exitCode ≠ 0 then .emitFailed (h.tr "Game crashed.")
              else .emitSucceeded])
      ∧ (h.settingsBool "CloseAfterLaunch" = false →
        Effect.showMainWindow ∉ (on_state h m_process self .Finished).2)
      ∧ Effect.showMainWindow ∉ (on_state h m_process self .Aborted).2
      ∧ Effect.showMainWindow ∉ (on_state h m_process self .Crashed).2
      ∧ Effect.showMainWindow ∉ (on_state h m_process self .FailedToStart).2
      ∧ setPids (on_state h m_process self .Aborted).2 = [-1]
      ∧ setPids (on_state h m_process self .Crashed).2 = [-1]
      ∧ setPids (on_state h m_process self .Finished).2 = [-1]
      ∧ setPids (on_state h m_process self .Running).2 = [m_process.processId]
      ∧ setPids (on_state h m_process self .FailedToStart).2 = [] := by
  refine ⟨?_, ?_, ?_, ?_, ?_, ?_, ?_, ?_, ?_, ?_⟩
  · intro hclose
    by_cases hexit : m_process.exitCode = 0 <;> simp [on_state, hclose, hexit]
  · intro hclose
    by_cases hexit : m_process.exitCode = 0 <;> simp [on_state, hclose, hexit]
  · simp [on_state]
  · simp [on_state]
  · simp [on_state]
  · simp [on_state, setPids]
  · simp [on_state, setPids]
  · by_cases hexit : m_process.exitCode = 0 <;>
      by_cases hclose : h.settingsBool "CloseAfterLaunch" = true <;>
        simp [on_state, hclose, hexit, setPids]
  · simp [on_state, setPids]
  · simp [on_state, setPids]

/-- C21 at a process that finished with exit code 7 on a desktop with
`CloseAfterLaunch` set. -/
theorem on_state_window_and_pid_witness :
    closeAfterLaunchHost.settingsBool "CloseAfterLaunch" = true
      ∧ (on_state closeAfterLaunchHost failedProcess freshStep .Finished).2
          = [.showMainWindow, .setPid (-1),
              if failedProcess.exitCode ≠ 0
                then .emitFailed (closeAfterLaunchHost.tr "Game crashed.")
                else .emitSucceeded] :=
  ⟨by decide,
    (on_state_window_and_pid closeAfterLaunchHost failedProcess freshStep).1 (by decide)⟩

end Launcher
